import Mathlib

/-!
Shallow embedding of the p-code to LLVM lowering core implemented in
src/lib/BC/SleighLifter.cpp (class SleighLifter::PcodeToLLVMEmitIntoBlock),
together with theorems that check the natural-language specification of the
core against this embedding.

Modelling conventions:
* machine integers are natural numbers carried together with an explicit bit
  width; a read at width w reduces the stored value modulo 2 ^ w;
* each llvm::IRBuilder Create* call that inserts an instruction is recorded
  as one IREvent, so "the lowering emits no IR" is "the event list is
  unchanged";
* an ill-typed IR construction (for example CreateZExt to a narrower type,
  which is an assertion failure inside LLVM) and the LOG(FATAL) / failed
  assert paths of the source are modelled as the none value of Option: the
  lowering of that op does not produce a result;
* the external collaborators (SLEIGH engine register naming, host
  architecture register table, memory intrinsics) are parameters of the
  model (LifterConfig), mirroring section 6 of the specification;
* the source rejects any instruction containing a floating point opcode
  before per-op lowering starts (SleighLifter.cpp:1372-1378), so the opcode
  type below contains only the opcodes that can reach the per-op lowering.
-/

/-- Address space tag of a varnode.  These are the four spaces dispatched on
by LiftParamPtr (SleighLifter.cpp:383-411); any other space is LOG(FATAL)
in the source and therefore not representable here. -/
inductive AddrSpace
| ram
| register
| const
| unique
deriving DecidableEq

/-- Varnode: address space, offset and byte size, as in VarnodeData. -/
structure VarnodeData where
  space : AddrSpace
  offset : Nat
  size : Nat
deriving DecidableEq

/-- Lift status enumeration (remill::LiftStatus), restricted to the values
produced inside SleighLifter.cpp. -/
inductive LiftStatus
| kLiftedInstruction
| kLiftedInvalidInstruction
| kLiftedUnsupportedInstruction
| kLiftedLifterError
deriving DecidableEq

/-- P-code opcodes that can reach the per-op lowering.  Floating point
opcodes are excluded: LiftIntoInternalBlockWithSleighState returns
kLiftedUnsupportedInstruction for the whole instruction before lowering any
op when isFloatOp holds for some op (SleighLifter.cpp:1372-1378). -/
inductive OpCode
| CPUI_COPY
| CPUI_CAST
| CPUI_BOOL_NEGATE
| CPUI_INT_ZEXT
| CPUI_INT_SEXT
| CPUI_INT_2COMP
| CPUI_INT_NEGATE
| CPUI_POPCOUNT
| CPUI_BRANCH
| CPUI_CALL
| CPUI_BRANCHIND
| CPUI_CALLIND
| CPUI_RETURN
| CPUI_CBRANCH
| CPUI_LOAD
| CPUI_PIECE
| CPUI_SUBPIECE
| CPUI_INDIRECT
| CPUI_NEW
| CPUI_INT_AND
| CPUI_INT_OR
| CPUI_INT_XOR
| CPUI_INT_LEFT
| CPUI_INT_RIGHT
| CPUI_INT_SRIGHT
| CPUI_INT_ADD
| CPUI_INT_SUB
| CPUI_INT_MULT
| CPUI_INT_DIV
| CPUI_INT_SDIV
| CPUI_INT_REM
| CPUI_INT_SREM
| CPUI_INT_EQUAL
| CPUI_INT_NOTEQUAL
| CPUI_INT_LESS
| CPUI_INT_SLESS
| CPUI_INT_LESSEQUAL
| CPUI_INT_SLESSEQUAL
| CPUI_INT_CARRY
| CPUI_INT_SCARRY
| CPUI_INT_SBORROW
| CPUI_BOOL_AND
| CPUI_BOOL_OR
| CPUI_BOOL_XOR
| CPUI_STORE
| CPUI_PTRADD
| CPUI_PTRSUB
| CPUI_MULTIEQUAL
| CPUI_CPOOLREF
| CPUI_CALLOTHER
deriving DecidableEq

/-- Value of bit pattern v (with v < 2 ^ bits) read as a signed integer. -/
def toSigned (bits v : Nat) : Int :=
  if v < 2 ^ (bits - 1) then (v : Int) else (v : Int) - ((2 ^ bits : Nat) : Int)

/-- Wrap a signed integer back into the unsigned bit pattern of the width. -/
def wrapInt (bits : Nat) (i : Int) : Nat :=
  (i % ((2 ^ bits : Nat) : Int)).toNat

/-- Truncating division of signed integers (rounds toward zero), the
semantics of the LLVM sdiv instruction. -/
def intTDiv (a b : Int) : Int :=
  a.sign * b.sign * ((a.natAbs / b.natAbs : Nat) : Int)

/-- Signed remainder with the sign of the dividend, the semantics of the
LLVM srem instruction. -/
def intTMod (a b : Int) : Int :=
  a - b * intTDiv a b

/-- Population count of the low bits of a value, the semantics of the
llvm.ctpop intrinsic at width bits (exact for v < 2 ^ bits). -/
def popCountW (bits v : Nat) : Nat :=
  (List.range bits).countP (fun i => v.testBit i)

/-- CreateZExt.  The destination type must be strictly wider than the source
type (LLVM CastInst::castIsValid); an ill-typed zext is an assertion failure
inside LLVM, modelled as none. -/
def createZExt (srcBits dstBits v : Nat) : Option Nat :=
  if srcBits < dstBits then some v else none

/-- CreateSExt, valid only to a strictly wider type. -/
def createSExt (srcBits dstBits v : Nat) : Option Nat :=
  if srcBits < dstBits then some (wrapInt dstBits (toSigned srcBits v)) else none

/-- CreateTrunc, valid only to a strictly narrower type. -/
def createTrunc (srcBits dstBits v : Nat) : Option Nat :=
  if dstBits < srcBits then some (v % 2 ^ dstBits) else none

/-- CreateZExtOrTrunc, total: widening keeps the value, narrowing reduces
it modulo the destination width, equal widths are the identity. -/
def createZExtOrTrunc (srcBits dstBits v : Nat) : Nat :=
  if srcBits ≤ dstBits then v else v % 2 ^ dstBits

/-- Backing storage cell of a RegisterValue parameter: a named host state
register, a cell of the "unique" scratch space, or a cell of the
unknown-register scratch space (UniqueRegSpace uniques / unknown_regs). -/
inductive CellRef
| namedReg (name : String)
| uniqueCell (offset : Nat)
| unknownCell (offset : Nat)
deriving DecidableEq

/-- ValueLocation produced by LiftParamPtr: the Parameter class hierarchy of
the source (RegisterValue, Memory, ConstantValue). -/
inductive Param
| registerValue (cell : CellRef)
| memoryValue (index : Nat)
| constantValue (bits : Nat) (v : Nat)
deriving DecidableEq

/-- One IR instruction inserted through the llvm::IRBuilder, abstracted to
the information the theorems need.  Every Create* call of the source that
inserts an instruction is recorded as exactly one event. -/
inductive IREvent
| loadCell (c : CellRef)
| storeCell (c : CellRef) (v : Nat)
| loadMemPtr
| memLoadCall (index bits : Nat)
| memStoreCall (index bits v : Nat)
| storeMemPtr
| allocaCell (c : CellRef)
| cmpInst
| castInst
| arithInst
| callInst
| phiInst
| selectInst (v : Nat)
| storeNextPc (v : Nat)
| storeBtaken (v : Nat)
| condBrSplit (cond : Nat)
deriving DecidableEq

/-- Machine state observed and mutated by the emitted IR: host register
cells, the two scratch spaces, memory, and the next-pc / branch-taken cells
(the 4th and 3rd arguments of the emitted function). -/
structure MachineState where
  regs : String → Nat
  uniques : Nat → Nat
  unknowns : Nat → Nat
  mem : Nat → Nat
  next_pc : Nat
  btaken_flag : Nat

/-- ConstantReplacementContext (SleighLifter.cpp:243-287): the recorded
claim substitutions and the set of already consumed offsets. -/
structure ConstantReplacementContext where
  current_replacements : List (Nat × Param)
  used_values : List Nat
deriving DecidableEq

/-- Per-instruction lifter state threaded through the lowering: the machine
state affected by the emitted IR, the replacement context, the allocation
caches of the two UniqueRegSpace instances, and the emitted instruction
stream. -/
structure EmitS where
  mach : MachineState
  repl : ConstantReplacementContext
  allocU : List Nat
  allocUk : List Nat
  events : List IREvent

def EmitS.emit (s : EmitS) (e : IREvent) : EmitS :=
  { s with events := s.events ++ [e] }

def EmitS.emits (s : EmitS) (es : List IREvent) : EmitS :=
  { s with events := s.events ++ es }

def EmitS.markUsed (s : EmitS) (off : Nat) : EmitS :=
  { s with repl := { s.repl with used_values := s.repl.used_values ++ [off] } }

/-- Record a claim substitution.  std::map::insert does not overwrite an
existing key, so an already recorded offset keeps its old replacement. -/
def EmitS.addClaim (s : EmitS) (off : Nat) (p : Param) : EmitS :=
  if (s.repl.current_replacements.lookup off).isSome then s
  else { s with repl :=
    { s.repl with current_replacements := (off, p) :: s.repl.current_replacements } }

def MachineState.setCell (m : MachineState) (c : CellRef) (v : Nat) : MachineState :=
  match c with
  | CellRef.namedReg n => { m with regs := fun x => if x = n then v else m.regs x }
  | CellRef.uniqueCell o => { m with uniques := fun x => if x = o then v else m.uniques x }
  | CellRef.unknownCell o => { m with unknowns := fun x => if x = o then v else m.unknowns x }

def MachineState.readCell (m : MachineState) (c : CellRef) : Nat :=
  match c with
  | CellRef.namedReg n => m.regs n
  | CellRef.uniqueCell o => m.uniques o
  | CellRef.unknownCell o => m.unknowns o

def EmitS.setCell (s : EmitS) (c : CellRef) (v : Nat) : EmitS :=
  { s with mach := s.mach.setCell c v }

def EmitS.setMem (s : EmitS) (i v : Nat) : EmitS :=
  { s with mach := { s.mach with mem := fun x => if x = i then v else s.mach.mem x } }

def EmitS.setNextPc (s : EmitS) (v : Nat) : EmitS :=
  { s with mach := { s.mach with next_pc := v } }

def EmitS.setBtaken (s : EmitS) (v : Nat) : EmitS :=
  { s with mach := { s.mach with btaken_flag := v } }

def EmitS.addAllocU (s : EmitS) (o : Nat) : EmitS :=
  { s with allocU := s.allocU ++ [o] }

def EmitS.addAllocUk (s : EmitS) (o : Nat) : EmitS :=
  { s with allocUk := s.allocUk ++ [o] }

/-- External collaborators consumed by the core (section 6 of the spec):
the host word width, the SLEIGH register naming engine, the host register
table and remappings, the user-op name list, and the widths supported by
the external memory intrinsics (LoadFromMemory / StoreToMemory return a
null value for an unsupported type). -/
structure LifterConfig where
  wordBits : Nat
  regName : Nat → Nat → String
  remap : String → Option String
  archHasReg : String → Bool
  userOpNames : List String
  memLoadOk : Nat → Bool
  memStoreOk : Nat → Bool

/-- ASCII toupper applied to a character, as used by LiftNormalRegister. -/
def upperChar (c : Char) : Char :=
  if 97 ≤ c.toNat ∧ c.toNat ≤ 122 then Char.ofNat (c.toNat - 32) else c

/-- ASCII toupper applied to a register name (SleighLifter.cpp:342-344). -/
def upperStr (s : String) : String :=
  String.mk (s.data.map upperChar)

/-- Parameter::LiftAsInParam (SleighLifter.cpp:92-206), requested type an
integer of the given bit width.  RegisterValue loads from its cell;
Memory loads the memory pointer and calls the external read intrinsic,
which fails for an unsupported width; ConstantValue succeeds only when the
requested type equals its declared type.  The returned state carries the
instructions emitted (also on the failing Memory path, where the load of
the memory pointer has already been inserted). -/
def liftAsInParam (cfg : LifterConfig) (s : EmitS) (p : Param) (bits : Nat) :
    Option Nat × EmitS :=
  match p with
  | Param.registerValue c =>
      (some (s.mach.readCell c % 2 ^ bits), s.emit (IREvent.loadCell c))
  | Param.memoryValue idx =>
      let s1 := s.emit IREvent.loadMemPtr
      if cfg.memLoadOk bits then
        (some (s.mach.mem idx % 2 ^ bits), s1.emit (IREvent.memLoadCall idx bits))
      else (none, s1)
  | Param.constantValue b v => if bits = b then (some v, s) else (none, s)

/-- Parameter::StoreIntoParam.  RegisterValue stores into its cell; Memory
loads the memory pointer, calls the external write intrinsic (failure is
kLiftedInvalidInstruction) and stores the returned memory back;
ConstantValue always fails with kLiftedUnsupportedInstruction. -/
def storeIntoParam (cfg : LifterConfig) (s : EmitS) (p : Param) (bits v : Nat) :
    LiftStatus × EmitS :=
  match p with
  | Param.registerValue c =>
      (LiftStatus.kLiftedInstruction, (s.emit (IREvent.storeCell c v)).setCell c v)
  | Param.memoryValue idx =>
      let s1 := s.emit IREvent.loadMemPtr
      if cfg.memStoreOk bits then
        (LiftStatus.kLiftedInstruction,
          (((s1.emit (IREvent.memStoreCall idx bits v)).setMem idx v).emit
            IREvent.storeMemPtr))
      else (LiftStatus.kLiftedInvalidInstruction, s1)
  | Param.constantValue _ _ => (LiftStatus.kLiftedUnsupportedInstruction, s)

/-- ConstantReplacementContext::LiftOffsetOrReplace
(SleighLifter.cpp:264-286).  A recorded replacement is read at the target
type and the offset is marked consumed; failure to lift the replacement is
LOG(FATAL) in the source, modelled as none.  Without a replacement the
result is the integer constant literal of the offset at the target type
(llvm::ConstantInt::get truncates the offset to the type width). -/
def liftOffsetOrReplace (cfg : LifterConfig) (s : EmitS) (target : VarnodeData)
    (bits : Nat) : Option (Nat × EmitS) :=
  match s.repl.current_replacements.lookup target.offset with
  | some p =>
      match liftAsInParam cfg s p bits with
      | (none, _) => none
      | (some v, s1) => some (v, s1.markUsed target.offset)
  | none => some (target.offset % 2 ^ bits, s)

/-- LiftNormalRegister (SleighLifter.cpp:340-361): upper-case the name,
apply the host remappings, and resolve through the host register table. -/
def liftNormalRegister (cfg : LifterConfig) (reg_name : String) : Option Param :=
  let up := upperStr reg_name
  let nm := match cfg.remap up with
            | some r => r
            | none => up
  if cfg.archHasReg nm then some (Param.registerValue (CellRef.namedReg nm))
  else none

/-- UniqueRegSpace::GetUniquePtr for the "unique" scratch space: the first
reference to an offset inserts an alloca through the builder, later
references reuse the cached pointer (SleighLifter.cpp:226-240). -/
def getUniquePtrU (s : EmitS) (off : Nat) : CellRef × EmitS :=
  if off ∈ s.allocU then (CellRef.uniqueCell off, s)
  else (CellRef.uniqueCell off,
    (s.addAllocU off).emit (IREvent.allocaCell (CellRef.uniqueCell off)))

/-- UniqueRegSpace::GetUniquePtr for the unknown-register scratch space. -/
def getUniquePtrUk (s : EmitS) (off : Nat) : CellRef × EmitS :=
  if off ∈ s.allocUk then (CellRef.unknownCell off, s)
  else (CellRef.unknownCell off,
    (s.addAllocUk off).emit (IREvent.allocaCell (CellRef.unknownCell off)))

/-- LiftNormalRegisterOrCreateUnique (SleighLifter.cpp:363-376). -/
def liftNormalRegisterOrCreateUnique (cfg : LifterConfig) (s : EmitS)
    (reg_name : String) (target : VarnodeData) : Param × EmitS :=
  match liftNormalRegister cfg reg_name with
  | some p => (p, s)
  | none =>
      let (c, s1) := getUniquePtrUk s target.offset
      (Param.registerValue c, s1)

/-- LiftParamPtr (SleighLifter.cpp:383-411): dispatch a varnode to a
ValueLocation by address space.  The none result is the LOG(FATAL) path of
a failed replacement lift inside LiftOffsetOrReplace. -/
def liftParamPtr (cfg : LifterConfig) (s : EmitS) (vnode : VarnodeData) :
    Option (Param × EmitS) :=
  match vnode.space with
  | AddrSpace.ram =>
      match liftOffsetOrReplace cfg s vnode cfg.wordBits with
      | none => none
      | some (idx, s1) => some (Param.memoryValue idx, s1)
  | AddrSpace.register =>
      some (liftNormalRegisterOrCreateUnique cfg s
        (cfg.regName vnode.offset vnode.size) vnode)
  | AddrSpace.const =>
      match liftOffsetOrReplace cfg s vnode (vnode.size * 8) with
      | none => none
      | some (v, s1) => some (Param.constantValue (vnode.size * 8) v, s1)
  | AddrSpace.unique =>
      let (c, s1) := getUniquePtrU s vnode.offset
      some (Param.registerValue c, s1)

/-- LiftInParam (SleighLifter.cpp:427-430): resolve the varnode to a
ValueLocation and read it at the requested integer width.  The outer none
is the fatal path of LiftParamPtr; the inner Option is the handled
failure of LiftAsInParam. -/
def liftInParam (cfg : LifterConfig) (s : EmitS) (vnode : VarnodeData)
    (bits : Nat) : Option (Option Nat × EmitS) :=
  match liftParamPtr cfg s vnode with
  | none => none
  | some (p, s1) => some (liftAsInParam cfg s1 p bits)

/-- LiftIntegerInParam: read at the natural width of the varnode. -/
def liftIntegerInParam (cfg : LifterConfig) (s : EmitS) (vnode : VarnodeData) :
    Option (Option Nat × EmitS) :=
  liftInParam cfg s vnode (vnode.size * 8)

/-- LiftStoreIntoOutParam together with LiftRequireOutParam
(SleighLifter.cpp:438-458): a missing output varnode is
kLiftedUnsupportedInstruction, otherwise resolve the output and store. -/
def liftStoreIntoOutParam (cfg : LifterConfig) (s : EmitS) (bits v : Nat)
    (outvar : Option VarnodeData) : Option (LiftStatus × EmitS) :=
  match outvar with
  | none => some (LiftStatus.kLiftedUnsupportedInstruction, s)
  | some ov =>
      match liftParamPtr cfg s ov with
      | none => none
      | some (p, s1) => some (storeIntoParam cfg s1 p bits v)

/-- FixResultForOutVarnode (SleighLifter.cpp:414-425): CreateZExtOrTrunc
the value to the output width when the widths differ (one cast
instruction), otherwise the value passes through unchanged. -/
def fixResultForOutVarnode (s : EmitS) (bits v : Nat) (outvnode : VarnodeData) :
    Nat × Nat × EmitS :=
  if bits = outvnode.size * 8 then (bits, v, s)
  else (outvnode.size * 8, createZExtOrTrunc bits (outvnode.size * 8) v,
    s.emit IREvent.castInst)

/-- Result of one INTEGER_BINARY_OPS / BOOL_BINARY_OPS lambda: width and
value of the produced llvm::Value plus the instructions the lambda
inserted.  The inner none is an ill-typed IR construction (LLVM requires
equal operand types for binary operators and compares). -/
def BinOut : Type := Nat × Nat × List IREvent

/-- INTEGER_BINARY_OPS (SleighLifter.cpp:1198-1308): the map from opcode to
lowering lambda.  Arguments are the bit widths and values of the two lifted
operands.  Note the predicates actually used by the source:
CPUI_INT_LESSEQUAL lowers to CreateICmpSLE (signed) and
CPUI_INT_SLESSEQUAL to CreateICmpULE (unsigned), lines 1283-1292. -/
def INTEGER_BINARY_OPS (opc : OpCode) :
    Option (Nat → Nat → Nat → Nat → Option BinOut) :=
  match opc with
  | OpCode.CPUI_INT_AND => some fun lb lv rb rv =>
      if lb = rb then some (lb, Nat.land lv rv, [IREvent.arithInst]) else none
  | OpCode.CPUI_INT_OR => some fun lb lv rb rv =>
      if lb = rb then some (lb, Nat.lor lv rv, [IREvent.arithInst]) else none
  | OpCode.CPUI_INT_XOR => some fun lb lv rb rv =>
      if lb = rb then some (lb, Nat.xor lv rv, [IREvent.arithInst]) else none
  | OpCode.CPUI_INT_LEFT => some fun lb lv rb rv =>
      if lb = rb then some (lb, (lv <<< rv) % 2 ^ lb, [IREvent.arithInst])
      else some (lb, (lv <<< createZExtOrTrunc rb lb rv) % 2 ^ lb,
        [IREvent.castInst, IREvent.arithInst])
  | OpCode.CPUI_INT_RIGHT => some fun lb lv rb rv =>
      if lb = rb then some (lb, lv >>> rv, [IREvent.arithInst])
      else some (lb, lv >>> createZExtOrTrunc rb lb rv,
        [IREvent.castInst, IREvent.arithInst])
  | OpCode.CPUI_INT_SRIGHT => some fun lb lv rb rv =>
      let amt := if lb = rb then rv else createZExtOrTrunc rb lb rv
      let res := wrapInt lb (Int.fdiv (toSigned lb lv) ((2 ^ amt : Nat) : Int))
      if lb = rb then some (lb, res, [IREvent.arithInst])
      else some (lb, res, [IREvent.castInst, IREvent.arithInst])
  | OpCode.CPUI_INT_ADD => some fun lb lv rb rv =>
      if lb = rb then some (lb, (lv + rv) % 2 ^ lb, [IREvent.arithInst]) else none
  | OpCode.CPUI_INT_SUB => some fun lb lv rb rv =>
      if lb = rb then some (lb, (lv + (2 ^ lb - rv)) % 2 ^ lb, [IREvent.arithInst])
      else none
  | OpCode.CPUI_INT_MULT => some fun lb lv rb rv =>
      if lb = rb then some (lb, (lv * rv) % 2 ^ lb, [IREvent.arithInst]) else none
  | OpCode.CPUI_INT_DIV => some fun lb lv rb rv =>
      if lb = rb then some (lb, lv / rv, [IREvent.arithInst]) else none
  | OpCode.CPUI_INT_SDIV => some fun lb lv rb rv =>
      if lb = rb then
        some (lb, wrapInt lb (intTDiv (toSigned lb lv) (toSigned lb rv)),
          [IREvent.arithInst])
      else none
  | OpCode.CPUI_INT_REM => some fun lb lv rb rv =>
      if lb = rb then some (lb, lv % rv, [IREvent.arithInst]) else none
  | OpCode.CPUI_INT_SREM => some fun lb lv rb rv =>
      if lb = rb then
        some (lb, wrapInt lb (intTMod (toSigned lb lv) (toSigned lb rv)),
          [IREvent.arithInst])
      else none
  | OpCode.CPUI_INT_EQUAL => some fun lb lv rb rv =>
      if lb = rb then
        some (8, if lv = rv then 1 else 0, [IREvent.cmpInst, IREvent.castInst])
      else none
  | OpCode.CPUI_INT_NOTEQUAL => some fun lb lv rb rv =>
      if lb = rb then
        some (8, if lv = rv then 0 else 1, [IREvent.cmpInst, IREvent.castInst])
      else none
  | OpCode.CPUI_INT_LESS => some fun lb lv rb rv =>
      if lb = rb then
        some (8, if lv < rv then 1 else 0, [IREvent.cmpInst, IREvent.castInst])
      else none
  | OpCode.CPUI_INT_SLESS => some fun lb lv rb rv =>
      if lb = rb then
        some (8, if toSigned lb lv < toSigned rb rv then 1 else 0,
          [IREvent.cmpInst, IREvent.castInst])
      else none
  | OpCode.CPUI_INT_LESSEQUAL => some fun lb lv rb rv =>
      -- source line 1283-1287: CreateICmpSLE, a SIGNED compare
      if lb = rb then
        some (8, if toSigned lb lv ≤ toSigned rb rv then 1 else 0,
          [IREvent.cmpInst, IREvent.castInst])
      else none
  | OpCode.CPUI_INT_SLESSEQUAL => some fun lb lv rb rv =>
      -- source line 1288-1292: CreateICmpULE, an UNSIGNED compare
      if lb = rb then
        some (8, if lv ≤ rv then 1 else 0, [IREvent.cmpInst, IREvent.castInst])
      else none
  | OpCode.CPUI_INT_CARRY => some fun lb lv rb rv =>
      if lb = rb then
        some (1, if 2 ^ lb ≤ lv + rv then 1 else 0,
          [IREvent.callInst, IREvent.arithInst])
      else none
  | OpCode.CPUI_INT_SCARRY => some fun lb lv rb rv =>
      if lb = rb then
        let sum := toSigned lb lv + toSigned rb rv
        some (1,
          if sum < -((2 ^ (lb - 1) : Nat) : Int) ∨
             ((2 ^ (lb - 1) : Nat) : Int) ≤ sum then 1 else 0,
          [IREvent.callInst, IREvent.arithInst])
      else none
  | OpCode.CPUI_INT_SBORROW => some fun lb lv rb rv =>
      if lb = rb then
        let dif := toSigned lb lv - toSigned rb rv
        some (1,
          if dif < -((2 ^ (lb - 1) : Nat) : Int) ∨
             ((2 ^ (lb - 1) : Nat) : Int) ≤ dif then 1 else 0,
          [IREvent.callInst, IREvent.arithInst])
      else none
  | _ => none

/-- INTEGER_COMP_OPS (SleighLifter.cpp:1176-1180): the opcodes whose result
is widened to one byte before the store. -/
def INTEGER_COMP_OPS (opc : OpCode) : Bool :=
  match opc with
  | OpCode.CPUI_INT_EQUAL => true
  | OpCode.CPUI_INT_NOTEQUAL => true
  | OpCode.CPUI_INT_LESS => true
  | OpCode.CPUI_INT_SLESS => true
  | OpCode.CPUI_INT_LESSEQUAL => true
  | OpCode.CPUI_INT_SLESSEQUAL => true
  | OpCode.CPUI_INT_SBORROW => true
  | OpCode.CPUI_INT_SCARRY => true
  | OpCode.CPUI_INT_CARRY => true
  | _ => false

/-- BOOL_BINARY_OPS (SleighLifter.cpp:1184-1197).  Both operands have been
read as bytes, so the operand widths are always 8. -/
def BOOL_BINARY_OPS (opc : OpCode) :
    Option (Nat → Nat → Nat → Nat → Option BinOut) :=
  match opc with
  | OpCode.CPUI_BOOL_AND => some fun lb lv rb rv =>
      if lb = rb then some (lb, Nat.land lv rv, [IREvent.arithInst]) else none
  | OpCode.CPUI_BOOL_OR => some fun lb lv rb rv =>
      if lb = rb then some (lb, Nat.lor lv rv, [IREvent.arithInst]) else none
  | OpCode.CPUI_BOOL_XOR => some fun lb lv rb rv =>
      if lb = rb then some (lb, Nat.xor lv rv, [IREvent.arithInst]) else none
  | _ => none

/-- RedirectControlFlow (SleighLifter.cpp:479-485): store the target into
the next-pc cell and terminate the current block toward the exit block.
The block-level effect of TerminateBlock is covered by the control-flow
model further below; at the value level the store is recorded. -/
def redirectControlFlow (s : EmitS) (target : Nat) : LiftStatus × EmitS :=
  (LiftStatus.kLiftedInstruction,
    (s.emit (IREvent.storeNextPc target)).setNextPc target)

/-- LiftUnaryOp (SleighLifter.cpp:487-671) for the non-float opcodes.  A
break out of the switch and the default case are the final
kLiftedUnsupportedInstruction return; dereferencing a missing output
varnode (CPUI_INT_ZEXT / CPUI_INT_SEXT / CPUI_POPCOUNT read outvar->size
without a null check) is undefined behaviour in the source, modelled as
none. -/
def liftUnaryOp (cfg : LifterConfig) (s : EmitS) (opc : OpCode)
    (outvar : Option VarnodeData) (input_var : VarnodeData) :
    Option (LiftStatus × EmitS) :=
  match opc with
  | OpCode.CPUI_BOOL_NEGATE =>
      match liftInParam cfg s input_var 8 with
      | none => none
      | some (none, s1) => some (LiftStatus.kLiftedUnsupportedInstruction, s1)
      | some (some v, s1) =>
          liftStoreIntoOutParam cfg
            (s1.emits [IREvent.cmpInst, IREvent.castInst]) 8
            (if v = 0 then 1 else 0) outvar
  | OpCode.CPUI_COPY =>
      match liftInParam cfg s input_var (input_var.size * 8) with
      | none => none
      | some (none, s1) => some (LiftStatus.kLiftedUnsupportedInstruction, s1)
      | some (some v, s1) =>
          liftStoreIntoOutParam cfg s1 (input_var.size * 8) v outvar
  | OpCode.CPUI_CAST =>
      match liftInParam cfg s input_var (input_var.size * 8) with
      | none => none
      | some (none, s1) => some (LiftStatus.kLiftedUnsupportedInstruction, s1)
      | some (some v, s1) =>
          liftStoreIntoOutParam cfg s1 (input_var.size * 8) v outvar
  | OpCode.CPUI_BRANCH =>
      if input_var.space = AddrSpace.const then
        some (LiftStatus.kLiftedUnsupportedInstruction, s)
      else
        match liftOffsetOrReplace cfg s input_var (input_var.size * 8) with
        | none => none
        | some (v, s1) => some (redirectControlFlow s1 v)
  | OpCode.CPUI_CALL =>
      if input_var.space = AddrSpace.const then
        some (LiftStatus.kLiftedUnsupportedInstruction, s)
      else
        match liftOffsetOrReplace cfg s input_var (input_var.size * 8) with
        | none => none
        | some (v, s1) => some (redirectControlFlow s1 v)
  | OpCode.CPUI_RETURN =>
      match liftInParam cfg s input_var (input_var.size * 8) with
      | none => none
      | some (none, s1) => some (LiftStatus.kLiftedUnsupportedInstruction, s1)
      | some (some v, s1) => some (redirectControlFlow s1 v)
  | OpCode.CPUI_BRANCHIND =>
      match liftInParam cfg s input_var (input_var.size * 8) with
      | none => none
      | some (none, s1) => some (LiftStatus.kLiftedUnsupportedInstruction, s1)
      | some (some v, s1) => some (redirectControlFlow s1 v)
  | OpCode.CPUI_CALLIND =>
      match liftInParam cfg s input_var (input_var.size * 8) with
      | none => none
      | some (none, s1) => some (LiftStatus.kLiftedUnsupportedInstruction, s1)
      | some (some v, s1) => some (redirectControlFlow s1 v)
  | OpCode.CPUI_INT_ZEXT =>
      match liftIntegerInParam cfg s input_var with
      | none => none
      | some (none, s1) => some (LiftStatus.kLiftedUnsupportedInstruction, s1)
      | some (some v, s1) =>
          match outvar with
          | none => none
          | some ov =>
              match createZExt (input_var.size * 8) (ov.size * 8) v with
              | none => none
              | some v2 =>
                  liftStoreIntoOutParam cfg (s1.emit IREvent.castInst)
                    (ov.size * 8) v2 outvar
  | OpCode.CPUI_INT_SEXT =>
      match liftIntegerInParam cfg s input_var with
      | none => none
      | some (none, s1) => some (LiftStatus.kLiftedUnsupportedInstruction, s1)
      | some (some v, s1) =>
          match outvar with
          | none => none
          | some ov =>
              match createSExt (input_var.size * 8) (ov.size * 8) v with
              | none => none
              | some v2 =>
                  liftStoreIntoOutParam cfg (s1.emit IREvent.castInst)
                    (ov.size * 8) v2 outvar
  | OpCode.CPUI_INT_2COMP =>
      match liftIntegerInParam cfg s input_var with
      | none => none
      | some (none, s1) => some (LiftStatus.kLiftedUnsupportedInstruction, s1)
      | some (some v, s1) =>
          liftStoreIntoOutParam cfg (s1.emit IREvent.arithInst)
            (input_var.size * 8) ((2 ^ (input_var.size * 8) - v) %
              2 ^ (input_var.size * 8)) outvar
  | OpCode.CPUI_INT_NEGATE =>
      match liftIntegerInParam cfg s input_var with
      | none => none
      | some (none, s1) => some (LiftStatus.kLiftedUnsupportedInstruction, s1)
      | some (some v, s1) =>
          liftStoreIntoOutParam cfg (s1.emit IREvent.arithInst)
            (input_var.size * 8) (2 ^ (input_var.size * 8) - 1 - v) outvar
  | OpCode.CPUI_POPCOUNT =>
      match liftIntegerInParam cfg s input_var with
      | none => none
      | some (none, s1) => some (LiftStatus.kLiftedUnsupportedInstruction, s1)
      | some (some v, s1) =>
          match outvar with
          | none => none
          | some ov =>
              let s2 := s1.emit IREvent.callInst
              let r := fixResultForOutVarnode s2 (input_var.size * 8)
                (popCountW (input_var.size * 8) v) ov
              liftStoreIntoOutParam cfg r.2.2 r.1 r.2.1 outvar
  | _ => some (LiftStatus.kLiftedUnsupportedInstruction, s)

/-- LiftIntegerBinOp (SleighLifter.cpp:736-765).  Both operands are lifted
before the has_value check, so a failed operand still leaves the
instructions of the other lift in the block; a comparison result narrower
than one byte is widened with one more CreateZExt. -/
def liftIntegerBinOp (cfg : LifterConfig) (s : EmitS) (opc : OpCode)
    (outvar : Option VarnodeData) (lhs rhs : VarnodeData) :
    Option (LiftStatus × EmitS) :=
  match INTEGER_BINARY_OPS opc with
  | none => some (LiftStatus.kLiftedUnsupportedInstruction, s)
  | some f =>
      match liftIntegerInParam cfg s lhs with
      | none => none
      | some (olv, s1) =>
          match liftIntegerInParam cfg s1 rhs with
          | none => none
          | some (orv, s2) =>
              match olv, orv with
              | some lv, some rv =>
                  match f (lhs.size * 8) lv (rhs.size * 8) rv with
                  | none => none
                  | some (rbits, rval, evs) =>
                      let s3 := s2.emits evs
                      if INTEGER_COMP_OPS opc ∧ rbits ≠ 8 then
                        match createZExt rbits 8 rval with
                        | none => none
                        | some v8 =>
                            liftStoreIntoOutParam cfg
                              (s3.emit IREvent.castInst) 8 v8 outvar
                      else liftStoreIntoOutParam cfg s3 rbits rval outvar
              | _, _ => some (LiftStatus.kLiftedUnsupportedInstruction, s2)

/-- LiftBoolBinOp (SleighLifter.cpp:768-790): operands are read as bytes
only when the opcode is a boolean operation; both are lifted before the
check. -/
def liftBoolBinOp (cfg : LifterConfig) (s : EmitS) (opc : OpCode)
    (outvar : Option VarnodeData) (lhs rhs : VarnodeData) :
    Option (LiftStatus × EmitS) :=
  match BOOL_BINARY_OPS opc with
  | none => some (LiftStatus.kLiftedUnsupportedInstruction, s)
  | some f =>
      match liftInParam cfg s lhs 8 with
      | none => none
      | some (olv, s1) =>
          match liftInParam cfg s1 rhs 8 with
          | none => none
          | some (orv, s2) =>
              match olv, orv with
              | some lv, some rv =>
                  match f 8 lv 8 rv with
                  | none => none
                  | some (rbits, rval, evs) =>
                      liftStoreIntoOutParam cfg (s2.emits evs) rbits rval outvar
              | _, _ => some (LiftStatus.kLiftedUnsupportedInstruction, s2)

/-- LiftFloatBinOp (SleighLifter.cpp:848-871).  FindFloatBinOpFunc only
knows floating point opcodes, and no floating point opcode reaches the
per-op lowering (the whole instruction is rejected first), so on this
opcode type the lookup always fails and the state is untouched. -/
def liftFloatBinOp (s : EmitS) : Option (LiftStatus × EmitS) :=
  some (LiftStatus.kLiftedUnsupportedInstruction, s)

/-- LiftCBranch (SleighLifter.cpp:695-734).  The condition is read at the
condition varnode width and truncated to i1; the jump target is resolved
through the replacement context AT THE TARGET VARNODE WIDTH (lhs.size * 8,
line 712-713); the select over the current PC is stored into the next-pc
cell; finally TerminateBlockWithCondition splits the block (recorded as a
condBrSplit event; the block-level shape is covered by the control-flow
model below).  A missing PC register fails the assert of line 721. -/
def liftCBranch (cfg : LifterConfig) (s : EmitS) (lhs rhs : VarnodeData) :
    Option (LiftStatus × EmitS) :=
  match liftInParam cfg s rhs (rhs.size * 8) with
  | none => none
  | some (none, s1) => some (LiftStatus.kLiftedUnsupportedInstruction, s1)
  | some (some condv, s1) =>
      if lhs.space = AddrSpace.const then
        some (LiftStatus.kLiftedUnsupportedInstruction, s1)
      else
        match liftOffsetOrReplace cfg s1 lhs (lhs.size * 8) with
        | none => none
        | some (jump, s2) =>
            match createTrunc (rhs.size * 8) 1 condv with
            | none => none
            | some condb =>
                let s3 := s2.emit IREvent.castInst
                match liftNormalRegister cfg "PC" with
                | none => none
                | some pcParam =>
                    match liftAsInParam cfg s3 pcParam cfg.wordBits with
                    | (none, s4) =>
                        some (LiftStatus.kLiftedInstruction,
                          s4.emit (IREvent.condBrSplit condb))
                    | (some pcv, s4) =>
                        let sel := if condb = 1 then jump else pcv
                        let s5 := ((s4.emit (IREvent.selectInst sel)).emit
                          (IREvent.storeNextPc sel)).setNextPc sel
                        some (LiftStatus.kLiftedInstruction,
                          s5.emit (IREvent.condBrSplit condb))

/-- CPUI_LOAD branch of LiftBinOp (SleighLifter.cpp:896-917), with the
output varnode already known present: space_vn (lhs) is ignored, the
address is read at word width, the memory cell is read at the output
width, the value stored through the output location. -/
def liftLoadOp (cfg : LifterConfig) (s : EmitS) (out : VarnodeData)
    (rhs : VarnodeData) : Option (LiftStatus × EmitS) :=
  match liftInParam cfg s rhs cfg.wordBits with
  | none => none
  | some (none, s1) => some (LiftStatus.kLiftedUnsupportedInstruction, s1)
  | some (some addr, s1) =>
      match liftAsInParam cfg s1 (Param.memoryValue addr) (out.size * 8) with
      | (none, s2) => some (LiftStatus.kLiftedUnsupportedInstruction, s2)
      | (some v, s2) =>
          match liftParamPtr cfg s2 out with
          | none => none
          | some (p, s3) => some (storeIntoParam cfg s3 p (out.size * 8) v)

/-- CPUI_PIECE branch of LiftBinOp (SleighLifter.cpp:919-940).  The source
widens the most significant operand with CreateZExt to
IntegerType::get(context, outvar->size) — the BYTE size, not the bit
width — then shifts by ConstantInt::get(Int8Ty, rhs.size) and ORs with the
least significant operand; the type equality requirements of CreateZExt,
CreateShl and CreateOr are modelled by createZExt and the two guards, and
they are unsatisfiable together, so the lowering never produces a
well-typed result. -/
def liftPieceOp (cfg : LifterConfig) (s : EmitS) (out : VarnodeData)
    (lhs rhs : VarnodeData) : Option (LiftStatus × EmitS) :=
  match liftInParam cfg s lhs (lhs.size * 8) with
  | none => none
  | some (olv, s1) =>
      match liftInParam cfg s1 rhs (rhs.size * 8) with
      | none => none
      | some (orv, s2) =>
          match olv, orv with
          | some lv, some rv =>
              match createZExt (lhs.size * 8) out.size lv with
              | none => none
              | some ms =>
                  let s3 := s2.emit IREvent.castInst
                  if out.size = 8 then
                    let shifted := (ms <<< rhs.size) % 2 ^ out.size
                    let s4 := s3.emit IREvent.arithInst
                    if out.size = rhs.size * 8 then
                      liftStoreIntoOutParam cfg (s4.emit IREvent.arithInst)
                        out.size (Nat.lor shifted rv) (some out)
                    else none
                  else none
          | _, _ => some (LiftStatus.kLiftedUnsupportedInstruction, s2)

/-- CPUI_SUBPIECE branch of LiftBinOp (SleighLifter.cpp:942-964):
truncate the source to lhs.size - rhs.offset bytes, then fit to the
output width.  A zero new size would ask for an i0 type, an assertion
failure in IntegerType::get, modelled as none. -/
def liftSubpieceOp (cfg : LifterConfig) (s : EmitS) (out : VarnodeData)
    (lhs rhs : VarnodeData) : Option (LiftStatus × EmitS) :=
  match liftInParam cfg s lhs (lhs.size * 8) with
  | none => none
  | some (none, s1) => some (LiftStatus.kLiftedUnsupportedInstruction, s1)
  | some (some lv, s1) =>
      let new_size := lhs.size - rhs.offset
      if new_size = 0 then none
      else
        match createTrunc (lhs.size * 8) (new_size * 8) lv with
        | none => none
        | some tv =>
            let s2 := s1.emit IREvent.castInst
            if new_size < out.size then
              match createZExt (new_size * 8) (out.size * 8) tv with
              | none => none
              | some zv =>
                  liftStoreIntoOutParam cfg (s2.emit IREvent.castInst)
                    (out.size * 8) zv (some out)
            else if out.size < new_size then
              match createTrunc (new_size * 8) (out.size * 8) tv with
              | none => none
              | some tv2 =>
                  liftStoreIntoOutParam cfg (s2.emit IREvent.castInst)
                    (out.size * 8) tv2 (some out)
            else liftStoreIntoOutParam cfg s2 (new_size * 8) tv (some out)

/-- LiftBinOp (SleighLifter.cpp:874-979): CBRANCH first, then the integer,
boolean and float tables in order (each failed attempt keeps whatever
instructions it already emitted), then the special cases LOAD, PIECE,
SUBPIECE, INDIRECT, NEW, and finally kLiftedUnsupportedInstruction. -/
def liftBinOp (cfg : LifterConfig) (s : EmitS) (opc : OpCode)
    (outvar : Option VarnodeData) (lhs rhs : VarnodeData) :
    Option (LiftStatus × EmitS) :=
  if opc = OpCode.CPUI_CBRANCH then liftCBranch cfg s lhs rhs
  else
    match liftIntegerBinOp cfg s opc outvar lhs rhs with
    | none => none
    | some (res, sInt) =>
        if res = LiftStatus.kLiftedInstruction then some (res, sInt)
        else
          match liftBoolBinOp cfg sInt opc outvar lhs rhs with
          | none => none
          | some (bres, sBool) =>
              if bres = LiftStatus.kLiftedInstruction then some (bres, sBool)
              else
                match liftFloatBinOp sBool with
                | none => none
                | some (_, sFloat) =>
                    match opc, outvar with
                    | OpCode.CPUI_LOAD, some out => liftLoadOp cfg sFloat out rhs
                    | OpCode.CPUI_PIECE, some out =>
                        liftPieceOp cfg sFloat out lhs rhs
                    | OpCode.CPUI_SUBPIECE, some out =>
                        liftSubpieceOp cfg sFloat out lhs rhs
                    | _, _ =>
                        some (LiftStatus.kLiftedUnsupportedInstruction, sFloat)

/-- LiftThreeOperandOp (SleighLifter.cpp:981-1030): STORE, PTRADD, PTRSUB;
every break is the final kLiftedUnsupportedInstruction. -/
def liftThreeOperandOp (cfg : LifterConfig) (s : EmitS) (opc : OpCode)
    (outvar : Option VarnodeData) (param0 param1 param2 : VarnodeData) :
    Option (LiftStatus × EmitS) :=
  match opc with
  | OpCode.CPUI_STORE =>
      match liftInParam cfg s param1 cfg.wordBits with
      | none => none
      | some (none, s1) => some (LiftStatus.kLiftedUnsupportedInstruction, s1)
      | some (some addr, s1) =>
          match liftInParam cfg s1 param2 (param2.size * 8) with
          | none => none
          | some (none, s2) => some (LiftStatus.kLiftedUnsupportedInstruction, s2)
          | some (some v, s2) =>
              some (storeIntoParam cfg s2 (Param.memoryValue addr)
                (param2.size * 8) v)
  | OpCode.CPUI_PTRADD =>
      match liftInParam cfg s param0 cfg.wordBits with
      | none => none
      | some (oaddr, s1) =>
          match liftIntegerInParam cfg s1 param1 with
          | none => none
          | some (oidx, s2) =>
              match oaddr, oidx with
              | some addr, some idx =>
                  -- CreateMul(index, elem_size) and CreateAdd(addr, offset)
                  -- need equal operand types
                  if param1.size * 8 = param2.size * 8 ∧
                     cfg.wordBits = param1.size * 8 then
                    let elem := param2.offset % 2 ^ (param2.size * 8)
                    let off := (idx * elem) % 2 ^ (param1.size * 8)
                    liftStoreIntoOutParam cfg
                      (s2.emits [IREvent.arithInst, IREvent.arithInst])
                      cfg.wordBits ((addr + off) % 2 ^ cfg.wordBits) outvar
                  else none
              | _, _ => some (LiftStatus.kLiftedUnsupportedInstruction, s2)
  | OpCode.CPUI_PTRSUB =>
      match liftInParam cfg s param0 cfg.wordBits with
      | none => none
      | some (oaddr, s1) =>
          match liftIntegerInParam cfg s1 param1 with
          | none => none
          | some (ooff, s2) =>
              match oaddr, ooff with
              | some addr, some off =>
                  if cfg.wordBits = param1.size * 8 then
                    liftStoreIntoOutParam cfg (s2.emit IREvent.arithInst)
                      cfg.wordBits ((addr + off) % 2 ^ cfg.wordBits) outvar
                  else none
              | _, _ => some (LiftStatus.kLiftedUnsupportedInstruction, s2)
  | _ => some (LiftStatus.kLiftedUnsupportedInstruction, s)

/-- LiftVariadicOp (SleighLifter.cpp:1032-1063).  The phi node of
CPUI_MULTIEQUAL is emitted before the inputs are lifted; its runtime value
is not meaningful (the source acknowledges that the incoming blocks are
wrong), so the stored value is modelled as 0.  An empty operand list
dereferences vars[0], undefined behaviour, modelled as none. -/
def liftVariadicOpInputs (cfg : LifterConfig) (s : EmitS) :
    List VarnodeData → Option (Bool × EmitS)
  | [] => some (true, s)
  | v :: rest =>
      match liftInParam cfg s v (v.size * 8) with
      | none => none
      | some (none, s1) => some (false, s1)
      | some (some _, s1) => liftVariadicOpInputs cfg s1 rest

def liftVariadicOp (cfg : LifterConfig) (s : EmitS) (opc : OpCode)
    (outvar : Option VarnodeData) (vars : List VarnodeData) :
    Option (LiftStatus × EmitS) :=
  match opc with
  | OpCode.CPUI_MULTIEQUAL =>
      match vars with
      | [] => none
      | v0 :: _ =>
          let s1 := s.emit IREvent.phiInst
          match liftVariadicOpInputs cfg s1 vars with
          | none => none
          | some (false, s2) =>
              some (LiftStatus.kLiftedUnsupportedInstruction, s2)
          | some (true, s2) =>
              liftStoreIntoOutParam cfg s2 (v0.size * 8) 0 outvar
  | OpCode.CPUI_CPOOLREF => some (LiftStatus.kLiftedUnsupportedInstruction, s)
  | _ => some (LiftStatus.kLiftedUnsupportedInstruction, s)

/-- Name of the equality claim user op (kEqualityClaimName). -/
def kEqualityClaimName : String := "claim_eq"

/-- GetOtherFuncName (SleighLifter.cpp:1066-1072): fewer than one input or
an out-of-range index into the user-op name list yields no name. -/
def getOtherFuncName (cfg : LifterConfig) (vars : List VarnodeData) :
    Option String :=
  match vars with
  | [] => none
  | v0 :: _ => cfg.userOpNames[v0.offset]?

/-- HandleCallOther (SleighLifter.cpp:1075-1089): the claim_eq sentinel
with arity 3 records a replacement (ApplyEqualityClaim resolves the value
varnode with LiftParamPtr, which can insert an alloca for a first-seen
scratch cell); everything else is kLiftedUnsupportedInstruction. -/
def handleCallOther (cfg : LifterConfig) (s : EmitS)
    (vars : List VarnodeData) : Option (LiftStatus × EmitS) :=
  match getOtherFuncName cfg vars with
  | none => some (LiftStatus.kLiftedUnsupportedInstruction, s)
  | some nm =>
      match vars with
      | [_, v1, v2] =>
          if nm = kEqualityClaimName then
            match liftParamPtr cfg s v2 with
            | none => none
            | some (p, s1) =>
                some (LiftStatus.kLiftedInstruction, s1.addClaim v1.offset p)
          else some (LiftStatus.kLiftedUnsupportedInstruction, s)
      | _ => some (LiftStatus.kLiftedUnsupportedInstruction, s)

/-- Branch-taken descriptor (remill::sleigh::BranchTakenVar): the varnode
holding the branch decision and the p-code index before which it must be
written out. -/
structure BranchTakenVar where
  target_vnode : VarnodeData
  index : Nat

/-- LiftBranchTaken (SleighLifter.cpp:1099-1115): read the branch-taken
varnode as an integer (failure is kLiftedLifterError), CreateZExtOrTrunc
it to one byte and store it through the branch-taken reference. -/
def liftBranchTaken (cfg : LifterConfig) (s : EmitS) (btaken : BranchTakenVar) :
    Option (LiftStatus × EmitS) :=
  match liftIntegerInParam cfg s btaken.target_vnode with
  | none => none
  | some (none, s1) => some (LiftStatus.kLiftedLifterError, s1)
  | some (some v, s1) =>
      let v8 := createZExtOrTrunc (btaken.target_vnode.size * 8) 8 v
      let s2 := if btaken.target_vnode.size * 8 = 8 then s1
                else s1.emit IREvent.castInst
      some (LiftStatus.kLiftedInstruction,
        (s2.emit (IREvent.storeBtaken v8)).setBtaken v8)

/-- One decoded p-code operation as delivered to the PcodeEmit::dump
callback. -/
structure PcodeOp where
  opc : OpCode
  outvar : Option VarnodeData
  vars : List VarnodeData

/-- LiftPcodeOp (SleighLifter.cpp:1126-1161): the variadic opcodes and
CPUI_CALLOTHER are dispatched on the opcode, everything else on the
operand count. -/
def liftPcodeOp (cfg : LifterConfig) (s : EmitS) (op : PcodeOp) :
    Option (LiftStatus × EmitS) :=
  if op.opc = OpCode.CPUI_MULTIEQUAL ∨ op.opc = OpCode.CPUI_CPOOLREF then
    liftVariadicOp cfg s op.opc op.outvar op.vars
  else if op.opc = OpCode.CPUI_CALLOTHER then
    handleCallOther cfg s op.vars
  else
    match op.vars with
    | [v0] => liftUnaryOp cfg s op.opc op.outvar v0
    | [v0, v1] => liftBinOp cfg s op.opc op.outvar v0 v1
    | [v0, v1, v2] => liftThreeOperandOp cfg s op.opc op.outvar v0 v1 v2
    | _ => some (LiftStatus.kLiftedUnsupportedInstruction, s)

/-- UpdateStatus (SleighLifter.cpp:302-307): any status other than
kLiftedInstruction overwrites the sticky status; success leaves it
untouched.  Hence the retained status is the LAST failing one, not the
first. -/
def updateStatus (cur new_status : LiftStatus) : LiftStatus :=
  if new_status ≠ LiftStatus.kLiftedInstruction then new_status else cur

/-- Whole per-instruction bookkeeping of PcodeToLLVMEmitIntoBlock: the
threaded emit state, the sticky status, and the running op index. -/
structure DumpS where
  es : EmitS
  status : LiftStatus
  curr_id : Nat

/-- The PcodeEmit::dump callback (SleighLifter.cpp:1163-1169): emit the
branch-taken store when the designated index is reached
(LiftBtakenIfReached), then lower the op, then advance the index.  Both
steps merge their status through UpdateStatus. -/
def dump (cfg : LifterConfig) (btaken : Option BranchTakenVar) (d : DumpS)
    (op : PcodeOp) : Option DumpS :=
  let stepBt : Option (LiftStatus × EmitS) :=
    match btaken with
    | some b =>
        if d.curr_id = b.index then liftBranchTaken cfg d.es b
        else some (LiftStatus.kLiftedInstruction, d.es)
    | none => some (LiftStatus.kLiftedInstruction, d.es)
  match stepBt with
  | none => none
  | some (st1, es1) =>
      let status1 := updateStatus d.status st1
      match liftPcodeOp cfg es1 op with
      | none => none
      | some (st2, es2) =>
          some ⟨es2, updateStatus status1 st2, d.curr_id + 1⟩

/-- Lowering of a whole p-code sequence: dump is invoked once per op, in
decoder order (oneInstruction drives the callbacks). -/
def liftSequence (cfg : LifterConfig) (btaken : Option BranchTakenVar)
    (d : DumpS) (ops : List PcodeOp) : Option DumpS :=
  ops.foldlM (dump cfg btaken) d

/-!
Control-flow model.  LiftIntoInternalBlockWithSleighState creates the entry
block (with the MEMORY alloca and store, SleighLifter.cpp:1354-1357), then
the exit block whose single instruction returns the loaded memory pointer
(lines 1390-1397), lowers the ops, and finally calls TerminateBlock
(line 1410).  At the block level every lowering step performs a sequence of
three primitive actions on the function under construction:
* appending an ordinary instruction to the current insertion block
  (every builder Create* call),
* TerminateBlock (reached through RedirectControlFlow, line 687-692):
  append an unconditional branch to the exit block if the last instruction
  of the current block is not a terminator,
* TerminateBlockWithCondition (line 679-685, reached from LiftCBranch):
  create a fresh continuation block at the end of the function, append a
  conditional branch (true edge to the exit block, false edge to the
  continuation block) to the current block, and make the continuation
  block the current insertion block.
The theorems below therefore quantify over arbitrary finite sequences of
these actions, which covers the lowering of every decodable instruction.
-/

/-- Block-level instruction: an ordinary instruction, an unconditional
branch to the exit block, a conditional branch to the exit block and a
continuation block, or the return of the exit block. -/
inductive BInst
| plain
| brExit
| condBrExit (next : Nat)
| retMem
deriving DecidableEq

/-- Terminator check, as llvm::Instruction::isTerminator. -/
def BInst.isTerm : BInst → Bool
  | BInst.plain => false
  | _ => true

/-- The function under construction: the number of blocks created so far,
the instruction list of each block by creation index (block 0 is the entry
block, block 1 the exit block, continuation blocks follow in creation
order, which is their order in the function), and the index of the current
insertion block. -/
structure CFGState where
  nblocks : Nat
  blk : Nat → List BInst
  cur : Nat

/-- Index of the exit block: it is the second block created. -/
def exitIdx : Nat := 1

/-- Function state right after DefineInstructionFunction and the creation
of the exit block: the entry block holds the MEMORY alloca and its store,
the exit block only its return of the memory pointer. -/
def initCFG : CFGState where
  nblocks := 2
  blk := fun i =>
    if i = 0 then [BInst.plain, BInst.plain]
    else if i = 1 then [BInst.retMem] else []
  cur := 0

/-- BasicBlock::getTerminator is non-null iff the last instruction of the
block is a terminator. -/
def endsWithTerm (b : List BInst) : Bool :=
  match b.getLast? with
  | some i => i.isTerm
  | none => false

/-- Append one instruction to the current insertion block. -/
def appendToCur (st : CFGState) (i : BInst) : CFGState :=
  { st with blk := fun j => if j = st.cur then st.blk st.cur ++ [i] else st.blk j }

/-- TerminateBlock (SleighLifter.cpp:687-692). -/
def termBlock (st : CFGState) : CFGState :=
  if endsWithTerm (st.blk st.cur) then st else appendToCur st BInst.brExit

/-- TerminateBlockWithCondition (SleighLifter.cpp:679-685): the new
continuation block is appended at the end of the function, so its index is
the old block count; the conditional branch goes into the old current
block; the continuation block becomes the current insertion block. -/
def termBlockCond (st : CFGState) : CFGState where
  nblocks := st.nblocks + 1
  blk := fun j =>
    if j = st.cur then st.blk st.cur ++ [BInst.condBrExit st.nblocks]
    else st.blk j
  cur := st.nblocks

/-- Primitive block-level actions of the lowering. -/
inductive BAction
| appendPlain
| doTermBlock
| doTermBlockCond
deriving DecidableEq

def applyBAction (st : CFGState) : BAction → CFGState
  | BAction.appendPlain => appendToCur st BInst.plain
  | BAction.doTermBlock => termBlock st
  | BAction.doTermBlockCond => termBlockCond st

/-- The block-level effect of a whole instruction lift: the action
sequence of the lowering followed by the final TerminateBlock of
LiftIntoInternalBlockWithSleighState (line 1410). -/
def runCFG (acts : List BAction) : CFGState :=
  termBlock (acts.foldl applyBAction initCFG)

/-- Path semantics: control leaving a block follows the first terminator
of the block; the function returns when it executes the return of the
exit block.  The first argument of the recursion bounds the number of
steps. -/
def reachesExitFuel (blk : Nat → List BInst) : Nat → Nat → Bool
  | 0, _ => false
  | fuel + 1, i =>
      match (blk i).find? BInst.isTerm with
      | some BInst.retMem => true
      | some BInst.brExit => reachesExitFuel blk fuel exitIdx
      | some (BInst.condBrExit n) =>
          reachesExitFuel blk fuel exitIdx && reachesExitFuel blk fuel n
      | _ => false

/-- Well-formedness of one block instruction at block index i in a
function with len blocks: a conditional split branches to a strictly
later, existing continuation block, and a return lives only in the exit
block.  Unconditional branches always target the exit block by
construction. -/
def termOk (len i : Nat) : BInst → Prop
  | BInst.condBrExit n => i < n ∧ n < len
  | BInst.retMem => i = exitIdx
  | _ => True

/-- Structural invariant maintained while lowering emits blocks. -/
structure CFGInv (st : CFGState) : Prop where
  twoLe : 2 ≤ st.nblocks
  curLt : st.cur < st.nblocks
  curNe : st.cur ≠ exitIdx
  exitBlk : st.blk exitIdx = [BInst.retMem]
  outOfRange : ∀ i, st.nblocks ≤ i → st.blk i = []
  others : ∀ i, i < st.nblocks → i ≠ st.cur → i ≠ exitIdx →
    endsWithTerm (st.blk i) = true
  wf : ∀ i inst, inst ∈ st.blk i → termOk st.nblocks i inst

/-- Concrete external-collaborator configuration used by the closed
theorems: a 64-bit host, registers PC, R0, R1 (at SLEIGH offsets 0, 16 and
8), no remappings, the claim_eq user op at index 0, and memory intrinsics
available exactly at the 64-bit width. -/
def testCfg : LifterConfig where
  wordBits := 64
  regName := fun off _ =>
    if off = 0 then "PC" else if off = 8 then "R1"
    else if off = 16 then "R0" else ""
  remap := fun _ => none
  archHasReg := fun n => n == "PC" || n == "R0" || n == "R1"
  userOpNames := ["claim_eq"]
  memLoadOk := fun bits => bits == 64
  memStoreOk := fun bits => bits == 64

/-- Concrete machine state: PC holds 0x800, R1 holds 0x4000, everything
else is zero. -/
def initMach : MachineState where
  regs := fun n => if n = "PC" then 0x800 else if n = "R1" then 0x4000 else 0
  uniques := fun _ => 0
  unknowns := fun _ => 0
  mem := fun _ => 0
  next_pc := 0
  btaken_flag := 0

/-- Fresh per-instruction emit state. -/
def initES : EmitS where
  mach := initMach
  repl := ⟨[], []⟩
  allocU := []
  allocUk := []
  events := []

/-- Fresh dump state at the start of an instruction lift. -/
def initDS : DumpS := ⟨initES, LiftStatus.kLiftedInstruction, 0⟩

/-!
Preservation of the recorded claim substitutions.  ApplyNonEqualityClaim
(SleighLifter.cpp:259-262) is declared but never invoked anywhere in the
source, and the only mutation of current_replacements is the insert of
ApplyEqualityClaim, reached exclusively from HandleCallOther.  The lemmas
below establish that every other lowering path leaves
current_replacements untouched.
-/

/-- Recorded claim substitutions of a lifter state. -/
def creps (s : EmitS) : List (Nat × Param) :=
  s.repl.current_replacements

@[simp]
theorem creps_emit (s : EmitS) (e : IREvent) : creps (s.emit e) = creps s := rfl

@[simp]
theorem creps_emits (s : EmitS) (es : List IREvent) :
    creps (s.emits es) = creps s := rfl

@[simp]
theorem creps_markUsed (s : EmitS) (o : Nat) :
    creps (s.markUsed o) = creps s := rfl

@[simp]
theorem creps_setCell (s : EmitS) (c : CellRef) (v : Nat) :
    creps (s.setCell c v) = creps s := rfl

@[simp]
theorem creps_setMem (s : EmitS) (i v : Nat) :
    creps (s.setMem i v) = creps s := rfl

@[simp]
theorem creps_setNextPc (s : EmitS) (v : Nat) :
    creps (s.setNextPc v) = creps s := rfl

@[simp]
theorem creps_setBtaken (s : EmitS) (v : Nat) :
    creps (s.setBtaken v) = creps s := rfl

@[simp]
theorem creps_addAllocU (s : EmitS) (o : Nat) :
    creps (s.addAllocU o) = creps s := rfl

@[simp]
theorem creps_addAllocUk (s : EmitS) (o : Nat) :
    creps (s.addAllocUk o) = creps s := rfl

@[simp]
theorem creps_liftAsInParam (cfg : LifterConfig) (s : EmitS) (p : Param)
    (bits : Nat) : creps (liftAsInParam cfg s p bits).2 = creps s := by
  unfold liftAsInParam
  split
  · rfl
  · split <;> rfl
  · split <;> rfl

@[simp]
theorem creps_storeIntoParam (cfg : LifterConfig) (s : EmitS) (p : Param)
    (bits v : Nat) : creps (storeIntoParam cfg s p bits v).2 = creps s := by
  unfold storeIntoParam
  split
  · rfl
  · split <;> rfl
  · rfl

theorem creps_liftOffsetOrReplace (cfg : LifterConfig) (s : EmitS)
    (t : VarnodeData) (bits : Nat) (v : Nat) (s1 : EmitS)
    (h : liftOffsetOrReplace cfg s t bits = some (v, s1)) :
    creps s1 = creps s := by
  unfold liftOffsetOrReplace at h
  split at h
  · rename_i p hp
    split at h
    · cases h
    · rename_i w s2 hh
      cases h
      have := creps_liftAsInParam cfg s p bits
      rw [hh] at this
      simpa using this
  · cases h
    rfl

@[simp]
theorem creps_getUniquePtrU (s : EmitS) (o : Nat) :
    creps (getUniquePtrU s o).2 = creps s := by
  unfold getUniquePtrU
  split <;> rfl

@[simp]
theorem creps_getUniquePtrUk (s : EmitS) (o : Nat) :
    creps (getUniquePtrUk s o).2 = creps s := by
  unfold getUniquePtrUk
  split <;> rfl

@[simp]
theorem creps_liftNormalRegisterOrCreateUnique (cfg : LifterConfig)
    (s : EmitS) (nm : String) (t : VarnodeData) :
    creps (liftNormalRegisterOrCreateUnique cfg s nm t).2 = creps s := by
  unfold liftNormalRegisterOrCreateUnique
  split
  · rfl
  · rcases hh : getUniquePtrUk s t.offset with ⟨c, s1⟩
    have := creps_getUniquePtrUk s t.offset
    rw [hh] at this
    simpa using this

theorem creps_liftParamPtr (cfg : LifterConfig) (s : EmitS)
    (vn : VarnodeData) (p : Param) (s1 : EmitS)
    (h : liftParamPtr cfg s vn = some (p, s1)) : creps s1 = creps s := by
  unfold liftParamPtr at h
  split at h
  · split at h
    · cases h
    · rename_i w s2 hh
      cases h
      exact creps_liftOffsetOrReplace cfg s vn cfg.wordBits w s1 hh
  · injection h with h2
    have h3 := creps_liftNormalRegisterOrCreateUnique cfg s
      (cfg.regName vn.offset vn.size) vn
    rw [h2] at h3
    exact h3
  · split at h
    · cases h
    · rename_i w s2 hh
      cases h
      exact creps_liftOffsetOrReplace cfg s vn (vn.size * 8) w s1 hh
  · cases h
    exact creps_getUniquePtrU s vn.offset

theorem creps_liftInParam (cfg : LifterConfig) (s : EmitS) (vn : VarnodeData)
    (bits : Nat) (ov : Option Nat) (s1 : EmitS)
    (h : liftInParam cfg s vn bits = some (ov, s1)) : creps s1 = creps s := by
  unfold liftInParam at h
  split at h
  · cases h
  · rename_i p s2 hh
    injection h with h2
    have h3 := creps_liftAsInParam cfg s2 p bits
    rw [h2] at h3
    exact h3.trans (creps_liftParamPtr cfg s vn p s2 hh)

theorem creps_liftIntegerInParam (cfg : LifterConfig) (s : EmitS)
    (vn : VarnodeData) (ov : Option Nat) (s1 : EmitS)
    (h : liftIntegerInParam cfg s vn = some (ov, s1)) : creps s1 = creps s :=
  creps_liftInParam cfg s vn (vn.size * 8) ov s1 h

theorem creps_liftStoreIntoOutParam (cfg : LifterConfig) (s : EmitS)
    (bits v : Nat) (outvar : Option VarnodeData) (st : LiftStatus) (s1 : EmitS)
    (h : liftStoreIntoOutParam cfg s bits v outvar = some (st, s1)) :
    creps s1 = creps s := by
  unfold liftStoreIntoOutParam at h
  split at h
  · cases h
    rfl
  · rename_i ov
    split at h
    · cases h
    · rename_i p s2 hh
      injection h with h2
      have h3 := creps_storeIntoParam cfg s2 p bits v
      rw [h2] at h3
      exact h3.trans (creps_liftParamPtr cfg s ov p s2 hh)

@[simp]
theorem creps_redirectControlFlow (s : EmitS) (t : Nat) :
    creps (redirectControlFlow s t).2 = creps s := rfl

@[simp]
theorem creps_fixResultForOutVarnode (s : EmitS) (bits v : Nat)
    (ov : VarnodeData) :
    creps (fixResultForOutVarnode s bits v ov).2.2 = creps s := by
  unfold fixResultForOutVarnode
  split <;> rfl

theorem creps_liftUnaryOp (cfg : LifterConfig) (s : EmitS) (opc : OpCode)
    (outvar : Option VarnodeData) (iv : VarnodeData) (st : LiftStatus)
    (s1 : EmitS) (h : liftUnaryOp cfg s opc outvar iv = some (st, s1)) :
    creps s1 = creps s := by
  unfold liftUnaryOp at h
  split at h <;> try (cases h; rfl)
  -- CPUI_BOOL_NEGATE
  · split at h
    · cases h
    · rename_i s1x hh
      cases h
      exact creps_liftInParam _ _ _ _ _ _ hh
    · rename_i vx s1x hh
      have h1 := creps_liftStoreIntoOutParam _ _ _ _ _ _ _ h
      simp only [creps_emits] at h1
      exact h1.trans (creps_liftInParam _ _ _ _ _ _ hh)
  -- CPUI_COPY
  · split at h
    · cases h
    · rename_i s1x hh
      cases h
      exact creps_liftInParam _ _ _ _ _ _ hh
    · rename_i vx s1x hh
      exact (creps_liftStoreIntoOutParam _ _ _ _ _ _ _ h).trans
        (creps_liftInParam _ _ _ _ _ _ hh)
  -- CPUI_CAST
  · split at h
    · cases h
    · rename_i s1x hh
      cases h
      exact creps_liftInParam _ _ _ _ _ _ hh
    · rename_i vx s1x hh
      exact (creps_liftStoreIntoOutParam _ _ _ _ _ _ _ h).trans
        (creps_liftInParam _ _ _ _ _ _ hh)
  -- CPUI_BRANCH
  · split at h
    · cases h
      rfl
    · split at h
      · cases h
      · rename_i w s1x hh
        injection h with h2
        have h3 : creps (redirectControlFlow s1x w).2 = creps s1x := rfl
        rw [h2] at h3
        exact h3.trans (creps_liftOffsetOrReplace _ _ _ _ _ _ hh)
  -- CPUI_CALL
  · split at h
    · cases h
      rfl
    · split at h
      · cases h
      · rename_i w s1x hh
        injection h with h2
        have h3 : creps (redirectControlFlow s1x w).2 = creps s1x := rfl
        rw [h2] at h3
        exact h3.trans (creps_liftOffsetOrReplace _ _ _ _ _ _ hh)
  -- CPUI_RETURN
  · split at h
    · cases h
    · rename_i s1x hh
      cases h
      exact creps_liftInParam _ _ _ _ _ _ hh
    · rename_i vx s1x hh
      injection h with h2
      have h3 : creps (redirectControlFlow s1x vx).2 = creps s1x := rfl
      rw [h2] at h3
      exact h3.trans (creps_liftInParam _ _ _ _ _ _ hh)
  -- CPUI_BRANCHIND
  · split at h
    · cases h
    · rename_i s1x hh
      cases h
      exact creps_liftInParam _ _ _ _ _ _ hh
    · rename_i vx s1x hh
      injection h with h2
      have h3 : creps (redirectControlFlow s1x vx).2 = creps s1x := rfl
      rw [h2] at h3
      exact h3.trans (creps_liftInParam _ _ _ _ _ _ hh)
  -- CPUI_CALLIND
  · split at h
    · cases h
    · rename_i s1x hh
      cases h
      exact creps_liftInParam _ _ _ _ _ _ hh
    · rename_i vx s1x hh
      injection h with h2
      have h3 : creps (redirectControlFlow s1x vx).2 = creps s1x := rfl
      rw [h2] at h3
      exact h3.trans (creps_liftInParam _ _ _ _ _ _ hh)
  -- CPUI_INT_ZEXT
  · split at h
    · cases h
    · rename_i s1x hh
      cases h
      exact creps_liftIntegerInParam _ _ _ _ _ hh
    · rename_i vx s1x hh
      split at h
      · cases h
      · rename_i ovx
        split at h
        · cases h
        · rename_i v2 hcz
          have h1 := creps_liftStoreIntoOutParam _ _ _ _ _ _ _ h
          simp only [creps_emit] at h1
          exact h1.trans (creps_liftIntegerInParam _ _ _ _ _ hh)
  -- CPUI_INT_SEXT
  · split at h
    · cases h
    · rename_i s1x hh
      cases h
      exact creps_liftIntegerInParam _ _ _ _ _ hh
    · rename_i vx s1x hh
      split at h
      · cases h
      · rename_i ovx
        split at h
        · cases h
        · rename_i v2 hcz
          have h1 := creps_liftStoreIntoOutParam _ _ _ _ _ _ _ h
          simp only [creps_emit] at h1
          exact h1.trans (creps_liftIntegerInParam _ _ _ _ _ hh)
  -- CPUI_INT_2COMP
  · split at h
    · cases h
    · rename_i s1x hh
      cases h
      exact creps_liftIntegerInParam _ _ _ _ _ hh
    · rename_i vx s1x hh
      have h1 := creps_liftStoreIntoOutParam _ _ _ _ _ _ _ h
      simp only [creps_emit] at h1
      exact h1.trans (creps_liftIntegerInParam _ _ _ _ _ hh)
  -- CPUI_INT_NEGATE
  · split at h
    · cases h
    · rename_i s1x hh
      cases h
      exact creps_liftIntegerInParam _ _ _ _ _ hh
    · rename_i vx s1x hh
      have h1 := creps_liftStoreIntoOutParam _ _ _ _ _ _ _ h
      simp only [creps_emit] at h1
      exact h1.trans (creps_liftIntegerInParam _ _ _ _ _ hh)
  -- CPUI_POPCOUNT
  · split at h
    · cases h
    · rename_i s1x hh
      cases h
      exact creps_liftIntegerInParam _ _ _ _ _ hh
    · rename_i vx s1x hh
      split at h
      · cases h
      · rename_i ovx
        have h1 := creps_liftStoreIntoOutParam _ _ _ _ _ _ _ h
        have h2 := creps_fixResultForOutVarnode (s1x.emit IREvent.callInst)
          (iv.size * 8) (popCountW (iv.size * 8) vx) ovx
        simp only [creps_emit] at h2
        exact h1.trans (h2.trans (creps_liftIntegerInParam _ _ _ _ _ hh))

theorem creps_liftIntegerBinOp (cfg : LifterConfig) (s : EmitS) (opc : OpCode)
    (outvar : Option VarnodeData) (lhs rhs : VarnodeData) (st : LiftStatus)
    (s1 : EmitS) (h : liftIntegerBinOp cfg s opc outvar lhs rhs = some (st, s1)) :
    creps s1 = creps s := by
  unfold liftIntegerBinOp at h
  split at h <;> try (cases h; rfl)
  rename_i f hf
  split at h
  · cases h
  · rename_i olv s1x hh1
    split at h
    · cases h
    · rename_i orv s2x hh2
      split at h
      · rename_i lv rv
        split at h
        · cases h
        · rename_i rbits rval evs hbo
          split at h
          · split at h
            · cases h
            · rename_i v8 hcz
              have h1 := creps_liftStoreIntoOutParam _ _ _ _ _ _ _ h
              simp only [creps_emit, creps_emits] at h1
              exact h1.trans ((creps_liftIntegerInParam _ _ _ _ _ hh2).trans
                (creps_liftIntegerInParam _ _ _ _ _ hh1))
          · have h1 := creps_liftStoreIntoOutParam _ _ _ _ _ _ _ h
            simp only [creps_emits] at h1
            exact h1.trans ((creps_liftIntegerInParam _ _ _ _ _ hh2).trans
              (creps_liftIntegerInParam _ _ _ _ _ hh1))
      · cases h
        exact (creps_liftIntegerInParam _ _ _ _ _ hh2).trans
          (creps_liftIntegerInParam _ _ _ _ _ hh1)

theorem creps_liftBoolBinOp (cfg : LifterConfig) (s : EmitS) (opc : OpCode)
    (outvar : Option VarnodeData) (lhs rhs : VarnodeData) (st : LiftStatus)
    (s1 : EmitS) (h : liftBoolBinOp cfg s opc outvar lhs rhs = some (st, s1)) :
    creps s1 = creps s := by
  unfold liftBoolBinOp at h
  split at h <;> try (cases h; rfl)
  rename_i f hf
  split at h
  · cases h
  · rename_i olv s1x hh1
    split at h
    · cases h
    · rename_i orv s2x hh2
      split at h
      · rename_i lv rv
        split at h
        · cases h
        · rename_i rbits rval evs hbo
          have h1 := creps_liftStoreIntoOutParam _ _ _ _ _ _ _ h
          simp only [creps_emits] at h1
          exact h1.trans ((creps_liftInParam _ _ _ _ _ _ hh2).trans
            (creps_liftInParam _ _ _ _ _ _ hh1))
      · cases h
        exact (creps_liftInParam _ _ _ _ _ _ hh2).trans
          (creps_liftInParam _ _ _ _ _ _ hh1)

theorem creps_liftCBranch (cfg : LifterConfig) (s : EmitS)
    (lhs rhs : VarnodeData) (st : LiftStatus) (s1 : EmitS)
    (h : liftCBranch cfg s lhs rhs = some (st, s1)) : creps s1 = creps s := by
  unfold liftCBranch at h
  split at h
  · cases h
  · rename_i s1x hh
    cases h
    exact creps_liftInParam _ _ _ _ _ _ hh
  · rename_i condv s1x hh
    split at h
    · cases h
      exact creps_liftInParam _ _ _ _ _ _ hh
    · split at h
      · cases h
      · rename_i jump s2x hh2
        split at h
        · cases h
        · rename_i condb hcb
          split at h
          · cases h
          · rename_i pcP hpc
            have base : creps s2x = creps s :=
              (creps_liftOffsetOrReplace _ _ _ _ _ _ hh2).trans
                (creps_liftInParam _ _ _ _ _ _ hh)
            have h4 := creps_liftAsInParam cfg (s2x.emit IREvent.castInst)
              pcP cfg.wordBits
            rcases hpcv : liftAsInParam cfg (s2x.emit IREvent.castInst)
              pcP cfg.wordBits with ⟨opc2, s4x⟩
            dsimp only at h
            rw [hpcv] at h h4
            simp only [creps_emit] at h4
            rcases opc2 with _ | pcv
            · cases h
              simpa using h4.trans base
            · cases h
              simpa using h4.trans base

theorem creps_liftLoadOp (cfg : LifterConfig) (s : EmitS) (out rhs : VarnodeData)
    (st : LiftStatus) (s1 : EmitS)
    (h : liftLoadOp cfg s out rhs = some (st, s1)) : creps s1 = creps s := by
  unfold liftLoadOp at h
  split at h
  · cases h
  · rename_i s1x hh
    cases h
    exact creps_liftInParam _ _ _ _ _ _ hh
  · rename_i addr s1x hh
    have base : creps s1x = creps s := creps_liftInParam _ _ _ _ _ _ hh
    split at h
    · rename_i s2x hld
      cases h
      have h4 := creps_liftAsInParam cfg s1x (Param.memoryValue addr)
        (out.size * 8)
      rw [hld] at h4
      exact h4.trans base
    · rename_i v s2x hld
      have h4 := creps_liftAsInParam cfg s1x (Param.memoryValue addr)
        (out.size * 8)
      rw [hld] at h4
      split at h
      · cases h
      · rename_i p s3x hpp
        injection h with h2
        have h5 := creps_storeIntoParam cfg s3x p (out.size * 8) v
        rw [h2] at h5
        exact h5.trans ((creps_liftParamPtr _ _ _ _ _ hpp).trans (h4.trans base))

theorem creps_liftPieceOp (cfg : LifterConfig) (s : EmitS)
    (out lhs rhs : VarnodeData) (st : LiftStatus) (s1 : EmitS)
    (h : liftPieceOp cfg s out lhs rhs = some (st, s1)) : creps s1 = creps s := by
  unfold liftPieceOp at h
  split at h
  · cases h
  · rename_i olv s1x hh1
    split at h
    · cases h
    · rename_i orv s2x hh2
      have base : creps s2x = creps s :=
        (creps_liftInParam _ _ _ _ _ _ hh2).trans
          (creps_liftInParam _ _ _ _ _ _ hh1)
      split at h
      · rename_i lv rv
        split at h
        · cases h
        · rename_i ms hz
          split at h
          · split at h
            · have h1 := creps_liftStoreIntoOutParam _ _ _ _ _ _ _ h
              simp only [creps_emit] at h1
              exact h1.trans base
            · cases h
          · cases h
      · cases h
        exact base

theorem creps_liftSubpieceOp (cfg : LifterConfig) (s : EmitS)
    (out lhs rhs : VarnodeData) (st : LiftStatus) (s1 : EmitS)
    (h : liftSubpieceOp cfg s out lhs rhs = some (st, s1)) :
    creps s1 = creps s := by
  unfold liftSubpieceOp at h
  split at h
  · cases h
  · rename_i s1x hh
    cases h
    exact creps_liftInParam _ _ _ _ _ _ hh
  · rename_i lv s1x hh
    have base : creps s1x = creps s := creps_liftInParam _ _ _ _ _ _ hh
    dsimp only at h
    split at h
    · cases h
    · split at h
      · cases h
      · rename_i tv htr
        split at h
        · split at h
          · cases h
          · rename_i zv hz
            have h1 := creps_liftStoreIntoOutParam _ _ _ _ _ _ _ h
            simp only [creps_emit] at h1
            exact h1.trans base
        · split at h
          · split at h
            · cases h
            · rename_i tv2 htr2
              have h1 := creps_liftStoreIntoOutParam _ _ _ _ _ _ _ h
              simp only [creps_emit] at h1
              exact h1.trans base
          · have h1 := creps_liftStoreIntoOutParam _ _ _ _ _ _ _ h
            simp only [creps_emit] at h1
            exact h1.trans base

theorem creps_liftBinOp (cfg : LifterConfig) (s : EmitS) (opc : OpCode)
    (outvar : Option VarnodeData) (lhs rhs : VarnodeData) (st : LiftStatus)
    (s1 : EmitS) (h : liftBinOp cfg s opc outvar lhs rhs = some (st, s1)) :
    creps s1 = creps s := by
  unfold liftBinOp at h
  split at h
  · exact creps_liftCBranch _ _ _ _ _ _ h
  · split at h
    · cases h
    · rename_i res sInt hInt
      have baseInt : creps sInt = creps s :=
        creps_liftIntegerBinOp _ _ _ _ _ _ _ _ hInt
      split at h
      · cases h
        exact baseInt
      · split at h
        · cases h
        · rename_i bres sBool hBool
          have baseBool : creps sBool = creps sInt :=
            creps_liftBoolBinOp _ _ _ _ _ _ _ _ hBool
          split at h
          · cases h
            exact baseBool.trans baseInt
          · unfold liftFloatBinOp at h
            split at h
            · cases h
            · rename_i u sFloat hFl
              injection hFl with hFl2
              cases hFl2
              have baseF : creps sBool = creps s := baseBool.trans baseInt
              split at h
              · exact (creps_liftLoadOp _ _ _ _ _ _ h).trans baseF
              · exact (creps_liftPieceOp _ _ _ _ _ _ _ h).trans baseF
              · exact (creps_liftSubpieceOp _ _ _ _ _ _ _ h).trans baseF
              · cases h
                exact baseF

theorem creps_liftThreeOperandOp (cfg : LifterConfig) (s : EmitS)
    (opc : OpCode) (outvar : Option VarnodeData)
    (p0 p1 p2 : VarnodeData) (st : LiftStatus) (s1 : EmitS)
    (h : liftThreeOperandOp cfg s opc outvar p0 p1 p2 = some (st, s1)) :
    creps s1 = creps s := by
  unfold liftThreeOperandOp at h
  split at h <;> try (cases h; rfl)
  -- CPUI_STORE
  · split at h
    · cases h
    · rename_i s1x hh
      cases h
      exact creps_liftInParam _ _ _ _ _ _ hh
    · rename_i addr s1x hh
      split at h
      · cases h
      · rename_i s2x hh2
        cases h
        exact (creps_liftInParam _ _ _ _ _ _ hh2).trans
          (creps_liftInParam _ _ _ _ _ _ hh)
      · rename_i v s2x hh2
        injection h with h2
        have h5 := creps_storeIntoParam cfg s2x (Param.memoryValue addr)
          (p2.size * 8) v
        rw [h2] at h5
        exact h5.trans ((creps_liftInParam _ _ _ _ _ _ hh2).trans
          (creps_liftInParam _ _ _ _ _ _ hh))
  -- CPUI_PTRADD
  · split at h
    · cases h
    · rename_i oaddr s1x hh
      split at h
      · cases h
      · rename_i oidx s2x hh2
        have base : creps s2x = creps s :=
          (creps_liftIntegerInParam _ _ _ _ _ hh2).trans
            (creps_liftInParam _ _ _ _ _ _ hh)
        split at h
        · rename_i addr idx
          split at h
          · have h1 := creps_liftStoreIntoOutParam _ _ _ _ _ _ _ h
            simp only [creps_emits] at h1
            exact h1.trans base
          · cases h
        · cases h
          exact base
  -- CPUI_PTRSUB
  · split at h
    · cases h
    · rename_i oaddr s1x hh
      split at h
      · cases h
      · rename_i ooff s2x hh2
        have base : creps s2x = creps s :=
          (creps_liftIntegerInParam _ _ _ _ _ hh2).trans
            (creps_liftInParam _ _ _ _ _ _ hh)
        split at h
        · rename_i addr off
          split at h
          · have h1 := creps_liftStoreIntoOutParam _ _ _ _ _ _ _ h
            simp only [creps_emit] at h1
            exact h1.trans base
          · cases h
        · cases h
          exact base

theorem creps_liftVariadicOpInputs (cfg : LifterConfig) :
    ∀ (vars : List VarnodeData) (s : EmitS) (b : Bool) (s1 : EmitS),
      liftVariadicOpInputs cfg s vars = some (b, s1) → creps s1 = creps s := by
  intro vars
  induction vars with
  | nil =>
      intro s b s1 h
      unfold liftVariadicOpInputs at h
      cases h
      rfl
  | cons v rest ih =>
      intro s b s1 h
      unfold liftVariadicOpInputs at h
      split at h
      · cases h
      · rename_i s1x hh
        cases h
        exact creps_liftInParam _ _ _ _ _ _ hh
      · rename_i w s1x hh
        exact (ih s1x b s1 h).trans (creps_liftInParam _ _ _ _ _ _ hh)

theorem creps_liftVariadicOp (cfg : LifterConfig) (s : EmitS) (opc : OpCode)
    (outvar : Option VarnodeData) (vars : List VarnodeData) (st : LiftStatus)
    (s1 : EmitS) (h : liftVariadicOp cfg s opc outvar vars = some (st, s1)) :
    creps s1 = creps s := by
  unfold liftVariadicOp at h
  split at h <;> try (cases h; rfl)
  split at h
  · cases h
  · rename_i v0 rest
    dsimp only at h
    split at h
    · cases h
    · rename_i s2x hin
      cases h
      have := creps_liftVariadicOpInputs cfg (v0 :: rest)
        (s.emit IREvent.phiInst) false _ hin
      simpa using this
    · rename_i s2x hin
      have h1 := creps_liftStoreIntoOutParam _ _ _ _ _ _ _ h
      have h2 := creps_liftVariadicOpInputs cfg (v0 :: rest)
        (s.emit IREvent.phiInst) true s2x hin
      simp only [creps_emit] at h2
      exact h1.trans h2

theorem creps_liftPcodeOp (cfg : LifterConfig) (s : EmitS) (op : PcodeOp)
    (st : LiftStatus) (s1 : EmitS)
    (hne : op.opc ≠ OpCode.CPUI_CALLOTHER)
    (h : liftPcodeOp cfg s op = some (st, s1)) : creps s1 = creps s := by
  unfold liftPcodeOp at h
  by_cases hA : op.opc = OpCode.CPUI_MULTIEQUAL ∨ op.opc = OpCode.CPUI_CPOOLREF
  · rw [if_pos hA] at h
    exact creps_liftVariadicOp _ _ _ _ _ _ _ h
  · rw [if_neg hA, if_neg hne] at h
    split at h <;>
      first
        | (cases h; rfl)
        | exact creps_liftUnaryOp _ _ _ _ _ _ _ h
        | exact creps_liftBinOp _ _ _ _ _ _ _ _ h
        | exact creps_liftThreeOperandOp _ _ _ _ _ _ _ _ _ h

theorem termOk_mono {len len2 i : Nat} {inst : BInst} (h : termOk len i inst)
    (hle : len ≤ len2) : termOk len2 i inst := by
  cases inst <;> simp only [termOk] at h ⊢ <;> try trivial
  exact ⟨h.1, Nat.lt_of_lt_of_le h.2 hle⟩

theorem cfgInv_init : CFGInv initCFG := by
  refine ⟨by decide, by decide, by decide, rfl, ?_, ?_, ?_⟩
  · intro i hi
    simp only [initCFG] at hi ⊢
    have h0 : i ≠ 0 := by omega
    have h1 : i ≠ 1 := by omega
    simp [h0, h1]
  · intro i hlt hc he
    simp only [initCFG, exitIdx] at hlt hc he
    omega
  · intro i inst hmem
    simp only [initCFG] at hmem
    by_cases h0 : i = 0
    · subst h0
      simp at hmem
      subst hmem
      exact trivial
    · by_cases h1 : i = 1
      · subst h1
        simp at hmem
        subst hmem
        exact rfl
      · simp [h0, h1] at hmem

theorem endsWithTerm_concat (l : List BInst) (x : BInst) :
    endsWithTerm (l ++ [x]) = x.isTerm := by
  simp [endsWithTerm, List.getLast?_concat]

theorem cfgInv_appendToCur {st : CFGState} (h : CFGInv st) (inst : BInst)
    (hok : termOk st.nblocks st.cur inst) : CFGInv (appendToCur st inst) := by
  refine ⟨h.twoLe, h.curLt, h.curNe, ?_, ?_, ?_, ?_⟩
  · have : exitIdx ≠ st.cur := fun hh => h.curNe hh.symm
    simp [appendToCur, this, h.exitBlk]
  · intro i hi
    simp only [appendToCur] at hi
    have hne : i ≠ st.cur := by
      have := h.curLt
      omega
    simp [appendToCur, hne, h.outOfRange i hi]
  · intro i hlt hc he
    simp only [appendToCur] at hc ⊢
    simp [hc]
    exact h.others i hlt hc he
  · intro i inst2 hmem
    simp only [appendToCur] at hmem
    by_cases hc : i = st.cur
    · subst hc
      simp at hmem
      rcases hmem with hm | hm
      · exact h.wf _ _ hm
      · subst hm
        exact hok
    · simp [hc] at hmem
      exact h.wf _ _ hmem

theorem cfgInv_termBlock {st : CFGState} (h : CFGInv st) :
    CFGInv (termBlock st) := by
  unfold termBlock
  split
  · exact h
  · exact cfgInv_appendToCur h BInst.brExit trivial

theorem cfgInv_termBlockCond {st : CFGState} (h : CFGInv st) :
    CFGInv (termBlockCond st) := by
  have hcur_ne : st.nblocks ≠ st.cur := by
    have := h.curLt
    omega
  refine ⟨?_, ?_, ?_, ?_, ?_, ?_, ?_⟩
  · exact Nat.le_succ_of_le h.twoLe
  · exact Nat.lt_succ_self _
  · have := h.twoLe
    simp only [termBlockCond, exitIdx]
    omega
  · have : exitIdx ≠ st.cur := fun hh => h.curNe hh.symm
    simp [termBlockCond, this, h.exitBlk]
  · intro i hi
    simp only [termBlockCond] at hi
    have hne : i ≠ st.cur := by
      have := h.curLt
      omega
    have : st.nblocks ≤ i := by omega
    simp [termBlockCond, hne, h.outOfRange i this]
  · intro i hlt hc he
    simp only [termBlockCond] at hlt hc ⊢
    by_cases hcc : i = st.cur
    · subst hcc
      simp [endsWithTerm_concat]
      rfl
    · simp [hcc]
      have : i < st.nblocks := by omega
      exact h.others i this hcc he
  · intro i inst2 hmem
    simp only [termBlockCond] at hmem ⊢
    by_cases hcc : i = st.cur
    · subst hcc
      simp at hmem
      rcases hmem with hm | hm
      · exact termOk_mono (h.wf _ _ hm) (Nat.le_succ _)
      · subst hm
        exact ⟨h.curLt, Nat.lt_succ_self _⟩
    · simp [hcc] at hmem
      exact termOk_mono (h.wf _ _ hmem) (Nat.le_succ _)

theorem cfgInv_applyBAction {st : CFGState} (h : CFGInv st) (a : BAction) :
    CFGInv (applyBAction st a) := by
  cases a
  · exact cfgInv_appendToCur h BInst.plain trivial
  · exact cfgInv_termBlock h
  · exact cfgInv_termBlockCond h

theorem cfgInv_foldl (acts : List BAction) :
    ∀ st : CFGState, CFGInv st → CFGInv (acts.foldl applyBAction st) := by
  induction acts with
  | nil => intro st h; exact h
  | cons a rest ih => intro st h; exact ih _ (cfgInv_applyBAction h a)

theorem endsWithTerm_termBlock (st : CFGState) :
    endsWithTerm ((termBlock st).blk (termBlock st).cur) = true := by
  unfold termBlock
  split
  · assumption
  · simp [appendToCur, endsWithTerm_concat]
    rfl

theorem reaches_exit_block (blk : Nat → List BInst)
    (hexit : blk exitIdx = [BInst.retMem]) (f : Nat) :
    reachesExitFuel blk (f + 1) exitIdx = true := by
  unfold reachesExitFuel
  rw [hexit]
  rfl

theorem reaches_exit_of_inv (st : CFGState)
    (hexit : st.blk exitIdx = [BInst.retMem])
    (hterm : ∀ i, i < st.nblocks → endsWithTerm (st.blk i) = true)
    (hwf : ∀ i inst, inst ∈ st.blk i → termOk st.nblocks i inst) :
    ∀ k i, i < st.nblocks → st.nblocks - i < k →
      reachesExitFuel st.blk k i = true := by
  intro k
  induction k using Nat.strong_induction_on with
  | _ k ih =>
    intro i hi hk
    match k, hk with
    | kk + 1, hk =>
      have hk1 : 1 ≤ kk := by omega
      have hew := hterm i hi
      have hfind : ((st.blk i).find? BInst.isTerm).isSome := by
        rw [List.find?_isSome]
        rcases hlast : (st.blk i).getLast? with _ | t
        · rw [endsWithTerm, hlast] at hew
          cases hew
        · have hmem0 : t ∈ (st.blk i).getLast? := hlast
          obtain ⟨hne, heq⟩ := List.mem_getLast?_eq_getLast hmem0
          refine ⟨t, ?_, ?_⟩
          · rw [heq]
            exact List.getLast_mem hne
          · rw [endsWithTerm, hlast] at hew
            exact hew
      rcases hfs : (st.blk i).find? BInst.isTerm with _ | t
      · rw [hfs] at hfind
        cases hfind
      · have hpt : BInst.isTerm t = true := List.find?_some hfs
        have hmem : t ∈ st.blk i := List.mem_of_find?_eq_some hfs
        have hok := hwf i t hmem
        unfold reachesExitFuel
        rw [hfs]
        cases t with
        | plain => cases hpt
        | brExit =>
            match kk, hk1 with
            | kk2 + 1, _ => exact reaches_exit_block st.blk hexit kk2
        | condBrExit n =>
            simp only [Bool.and_eq_true]
            constructor
            · match kk, hk1 with
              | kk2 + 1, _ => exact reaches_exit_block st.blk hexit kk2
            · have hn := hok
              simp only [termOk] at hn
              exact ih kk (by omega) n hn.2 (by omega)
        | retMem => rfl

/-- C7: after lift completes, every block of the emitted function ends
with a terminator, the exit block consists of exactly the return of the
memory pointer, and following the control flow from any block reaches
that return. -/
theorem c7_all_blocks_terminated (acts : List BAction) :
    (∀ i, i < (runCFG acts).nblocks →
      endsWithTerm ((runCFG acts).blk i) = true) ∧
    (runCFG acts).blk exitIdx = [BInst.retMem] ∧
    (∀ i, i < (runCFG acts).nblocks →
      reachesExitFuel (runCFG acts).blk ((runCFG acts).nblocks + 1) i
        = true) := by
  have hG : CFGInv (acts.foldl applyBAction initCFG) :=
    cfgInv_foldl acts initCFG cfgInv_init
  have hF : CFGInv (runCFG acts) := cfgInv_termBlock hG
  have hcur : endsWithTerm ((runCFG acts).blk (runCFG acts).cur) = true := by
    unfold runCFG
    exact endsWithTerm_termBlock _
  have hterm : ∀ i, i < (runCFG acts).nblocks →
      endsWithTerm ((runCFG acts).blk i) = true := by
    intro i hi
    by_cases hc : i = (runCFG acts).cur
    · subst hc
      exact hcur
    · by_cases he : i = exitIdx
      · subst he
        rw [hF.exitBlk]
        rfl
      · exact hF.others i hi hc he
  refine ⟨hterm, hF.exitBlk, ?_⟩
  intro i hi
  exact reaches_exit_of_inv (runCFG acts) hF.exitBlk hterm hF.wf
    ((runCFG acts).nblocks + 1) i hi (by omega)

/-- C1: the claim states that INT_LESSEQUAL lowers to the UNSIGNED
less-or-equal predicate and INT_SLESSEQUAL to the SIGNED one.  The source
does the opposite (CreateICmpSLE for INT_LESSEQUAL, CreateICmpULE for
INT_SLESSEQUAL, SleighLifter.cpp:1283-1292).  At the failing input
lhs = 0xFF, rhs = 0x00 (one-byte operands) the emitted INT_LESSEQUAL
computation stores 1 — the signed comparison -1 <= 0 — although unsigned
0xFF <= 0x00 is false, and the INT_SLESSEQUAL computation stores 0
although signed -1 <= 0 is true.  The byte-width of the stored result is
as claimed. -/
theorem c1_int_lessequal_signed_at_failing_input :
    ((liftIntegerBinOp testCfg initES OpCode.CPUI_INT_LESSEQUAL
        (some ⟨AddrSpace.unique, 0x40, 1⟩) ⟨AddrSpace.const, 0xFF, 1⟩
        ⟨AddrSpace.const, 0, 1⟩).map
        (fun r => (r.1, r.2.mach.uniques 0x40)) =
      some (LiftStatus.kLiftedInstruction, 1)) ∧
    decide ((0xFF : Nat) ≤ 0) = false ∧
    (toSigned 8 0xFF ≤ toSigned 8 0) ∧
    ((liftIntegerBinOp testCfg initES OpCode.CPUI_INT_SLESSEQUAL
        (some ⟨AddrSpace.unique, 0x40, 1⟩) ⟨AddrSpace.const, 0xFF, 1⟩
        ⟨AddrSpace.const, 0, 1⟩).map
        (fun r => (r.1, r.2.mach.uniques 0x40)) =
      some (LiftStatus.kLiftedInstruction, 0)) := by
  refine ⟨by decide, by decide, by decide, by decide⟩

/-- C2: the claim states that PIECE with hi = 0xAA (1 byte), lo = 0xBB
(1 byte) and a 2-byte output writes 0xAABB, the hi input being
zero-extended to the output BIT width.  The source instead requests
CreateZExt to IntegerType::get(context, outvar->size) — 2 BITS, the byte
size — and shifts by rhs.size = 1; the zext of an i8 value to i2 is an
ill-typed cast (LLVM assertion failure), so the lowering of the spec
example produces no result at all, and in particular never writes
0xAABB. -/
theorem c2_piece_ill_typed_at_spec_example :
    (liftBinOp testCfg initES OpCode.CPUI_PIECE
      (some ⟨AddrSpace.unique, 0x20, 2⟩) ⟨AddrSpace.const, 0xAA, 1⟩
      ⟨AddrSpace.const, 0xBB, 1⟩).isNone = true ∧
    createZExt (1 * 8) 2 0xAA = none := by
  refine ⟨by decide, by decide⟩

/-- C3 counterexample: two ops of one instruction fail with different
non-Lifted statuses — a STORE whose 16-bit width the memory intrinsic
rejects (kLiftedInvalidInstruction) followed by a CALLOTHER with an
out-of-range user-op index (kLiftedUnsupportedInstruction).  The status
after both ops is the status of the SECOND failing op, not the first as
the claim states. -/
theorem c3_counterexample_first_status_not_retained :
    ((liftSequence testCfg none initDS
        [⟨OpCode.CPUI_STORE, none,
          [⟨AddrSpace.const, 0, 8⟩, ⟨AddrSpace.const, 0x100, 8⟩,
           ⟨AddrSpace.const, 7, 2⟩]⟩]).map (fun d => d.status) =
      some LiftStatus.kLiftedInvalidInstruction) ∧
    ((liftSequence testCfg none initDS
        [⟨OpCode.CPUI_STORE, none,
          [⟨AddrSpace.const, 0, 8⟩, ⟨AddrSpace.const, 0x100, 8⟩,
           ⟨AddrSpace.const, 7, 2⟩]⟩,
         ⟨OpCode.CPUI_CALLOTHER, none, [⟨AddrSpace.const, 5, 4⟩]⟩]).map
        (fun d => d.status) =
      some LiftStatus.kLiftedUnsupportedInstruction) ∧
    decide (LiftStatus.kLiftedInvalidInstruction =
      LiftStatus.kLiftedUnsupportedInstruction) = false := by
  refine ⟨by decide, by decide, by decide⟩

/-- C3 amended: UpdateStatus overwrites the sticky status with every
non-Lifted op status (SleighLifter.cpp:302-307), so when two ops of one
instruction fail with different statuses the retained status is that of
the LAST failing op; the op after the first failure is still lowered (the
final state carries its effects) and the op index keeps advancing. -/
theorem c3_last_failing_status_retained (cfg : LifterConfig) (es0 : EmitS)
    (st0 : LiftStatus) (id : Nat) (op1 op2 : PcodeOp) (a b : LiftStatus)
    (esA esB : EmitS)
    (h1 : liftPcodeOp cfg es0 op1 = some (a, esA))
    (ha : a ≠ LiftStatus.kLiftedInstruction)
    (h2 : liftPcodeOp cfg esA op2 = some (b, esB))
    (hb : b ≠ LiftStatus.kLiftedInstruction) :
    liftSequence cfg none ⟨es0, st0, id⟩ [op1, op2] =
      some ⟨esB, b, id + 2⟩ := by
  unfold liftSequence
  simp only [List.foldlM, dump, h1, h2]
  simp [updateStatus, ha, hb]
  rw [h2]
  simp [hb]

/-- C3 witness: the amended theorem applied to the concrete two-op
instruction of the counterexample. -/
theorem c3_last_failing_status_retained_witness :
    (liftSequence testCfg none ⟨initES, LiftStatus.kLiftedInstruction, 0⟩
      [⟨OpCode.CPUI_STORE, none,
        [⟨AddrSpace.const, 0, 8⟩, ⟨AddrSpace.const, 0x100, 8⟩,
         ⟨AddrSpace.const, 7, 2⟩]⟩,
       ⟨OpCode.CPUI_CALLOTHER, none, [⟨AddrSpace.const, 5, 4⟩]⟩]).map
      (fun d => d.status) = some LiftStatus.kLiftedUnsupportedInstruction := by
  rw [c3_last_failing_status_retained testCfg initES
    LiftStatus.kLiftedInstruction 0
    ⟨OpCode.CPUI_STORE, none,
      [⟨AddrSpace.const, 0, 8⟩, ⟨AddrSpace.const, 0x100, 8⟩,
       ⟨AddrSpace.const, 7, 2⟩]⟩
    ⟨OpCode.CPUI_CALLOTHER, none, [⟨AddrSpace.const, 5, 4⟩]⟩
    LiftStatus.kLiftedInvalidInstruction
    LiftStatus.kLiftedUnsupportedInstruction _ _ rfl (by decide) rfl (by decide)]
  rfl

/-- C4 counterexample: claim_eq(0xDEAD, R1) with R1 = 0x4000, followed by
an INT_ADD (not a claim op), followed by a BRANCH whose target varnode has
offset 0xDEAD.  The claim states the substitution is discarded when the
INT_ADD is lowered, so the BRANCH should resolve to the literal 0xDEAD;
the code instead still resolves through the recorded claim and stores
0x4000 into the next-pc cell, because ApplyNonEqualityClaim is never
invoked anywhere in the source. -/
theorem c4_counterexample_claim_survives_nonclaim_op :
    ((liftSequence testCfg none initDS
        [⟨OpCode.CPUI_CALLOTHER, none,
          [⟨AddrSpace.const, 0, 8⟩, ⟨AddrSpace.const, 0xDEAD, 8⟩,
           ⟨AddrSpace.register, 8, 8⟩]⟩,
         ⟨OpCode.CPUI_INT_ADD, some ⟨AddrSpace.unique, 0x50, 2⟩,
          [⟨AddrSpace.const, 1, 2⟩, ⟨AddrSpace.const, 2, 2⟩]⟩,
         ⟨OpCode.CPUI_BRANCH, none, [⟨AddrSpace.ram, 0xDEAD, 8⟩]⟩]).map
        (fun d => (d.status, d.es.mach.next_pc)) =
      some (LiftStatus.kLiftedInstruction, 0x4000)) ∧
    decide ((0x4000 : Nat) = 0xDEAD) = false := by
  refine ⟨by decide, by decide⟩

/-- C4 amended: the ConstantReplacementContext is NEVER cleared —
ApplyNonEqualityClaim (SleighLifter.cpp:259-262) has no caller — so
lowering any op that is not a CALLOTHER leaves the recorded substitutions
untouched, and a pending claim for an offset is still pending (and still
resolves to the claimed location, not to the literal constant) for every
later op of the instruction. -/
theorem c4_replacements_survive_non_callother_ops (cfg : LifterConfig)
    (s : EmitS) (op : PcodeOp) (st : LiftStatus) (s1 : EmitS)
    (hne : op.opc ≠ OpCode.CPUI_CALLOTHER)
    (h : liftPcodeOp cfg s op = some (st, s1)) :
    s1.repl.current_replacements = s.repl.current_replacements ∧
    (∀ c : Nat, s1.repl.current_replacements.lookup c =
      s.repl.current_replacements.lookup c) := by
  have hp := creps_liftPcodeOp cfg s op st s1 hne h
  unfold creps at hp
  exact ⟨hp, fun c => by rw [hp]⟩

/-- C4 witness: the amended theorem applied to the INT_ADD of the
counterexample instruction, starting from a state holding the pending
claim for offset 0xDEAD: after the op, the claim is still recorded. -/
theorem c4_replacements_survive_non_callother_ops_witness :
    (liftPcodeOp testCfg
      { initES with repl :=
        ⟨[(0xDEAD, Param.registerValue (CellRef.namedReg "R1"))], []⟩ }
      ⟨OpCode.CPUI_INT_ADD, some ⟨AddrSpace.unique, 0x50, 2⟩,
       [⟨AddrSpace.const, 1, 2⟩, ⟨AddrSpace.const, 2, 2⟩]⟩).map
      (fun r => r.2.repl.current_replacements) =
    some [(0xDEAD, Param.registerValue (CellRef.namedReg "R1"))] := by
  rcases hEq : liftPcodeOp testCfg
      { initES with repl :=
        ⟨[(0xDEAD, Param.registerValue (CellRef.namedReg "R1"))], []⟩ }
      ⟨OpCode.CPUI_INT_ADD, some ⟨AddrSpace.unique, 0x50, 2⟩,
       [⟨AddrSpace.const, 1, 2⟩, ⟨AddrSpace.const, 2, 2⟩]⟩ with _ | ⟨st2, s2⟩
  · have hs : (liftPcodeOp testCfg
      { initES with repl :=
        ⟨[(0xDEAD, Param.registerValue (CellRef.namedReg "R1"))], []⟩ }
      ⟨OpCode.CPUI_INT_ADD, some ⟨AddrSpace.unique, 0x50, 2⟩,
       [⟨AddrSpace.const, 1, 2⟩, ⟨AddrSpace.const, 2, 2⟩]⟩).isSome = true := by
      decide
    rw [hEq] at hs
    cases hs
  · have h := (c4_replacements_survive_non_callother_ops testCfg _ _ st2 s2
      (by decide) hEq).1
    simp only [Option.map_some']
    rw [h]

/-- C5 counterexample: a CBRANCH with target varnode (ram, 0x1000, 8 bytes)
and condition varnode (const, 1, 1 byte).  The code resolves the branch
target at the TARGET varnode size (8 bytes: the i64 constant 0x1000,
stored into the next-pc cell), not at the condition varnode size as the
claim states — resolving at the condition size (1 byte) would truncate the
target to 0x1000 mod 256 = 0. -/
theorem c5_counterexample_target_resolved_at_target_size :
    ((liftPcodeOp testCfg initES
        ⟨OpCode.CPUI_CBRANCH, none,
         [⟨AddrSpace.ram, 0x1000, 8⟩, ⟨AddrSpace.const, 1, 1⟩]⟩).map
        (fun r => (r.1, r.2.mach.next_pc)) =
      some (LiftStatus.kLiftedInstruction, 0x1000)) ∧
    ((liftOffsetOrReplace testCfg initES ⟨AddrSpace.ram, 0x1000, 8⟩
        (1 * 8)).map (fun r => r.1) = some 0) ∧
    decide ((0x1000 : Nat) = 0) = false := by
  refine ⟨by decide, by decide, by decide⟩

/-- C5 amended: for a CBRANCH whose target is not in constant space, the
lowering reads the condition at the condition varnode width, truncates it
to i1, resolves the target through the ClaimContext AT THE TARGET VARNODE
SIZE (lhs.size * 8), stores select(cond, target, current PC) into the
next-pc cell, and then splits the block with a conditional branch whose
true edge is the exit block (recorded as the final condBrSplit event; the
block-level shape is established on the control-flow model). -/
theorem c5_cbranch_lowering (cfg : LifterConfig) (es : EmitS)
    (lhs rhs : VarnodeData) (condv : Nat) (es1 : EmitS) (jump : Nat)
    (es2 : EmitS) (condb : Nat) (pcCell : CellRef)
    (hcond : liftInParam cfg es rhs (rhs.size * 8) = some (some condv, es1))
    (hsp : lhs.space ≠ AddrSpace.const)
    (hjump : liftOffsetOrReplace cfg es1 lhs (lhs.size * 8) = some (jump, es2))
    (htr : createTrunc (rhs.size * 8) 1 condv = some condb)
    (hpc : liftNormalRegister cfg "PC" = some (Param.registerValue pcCell)) :
    (liftCBranch cfg es lhs rhs).map
      (fun r => (r.1, r.2.mach.next_pc, r.2.events)) =
    some (LiftStatus.kLiftedInstruction,
      (if condb = 1 then jump else es2.mach.readCell pcCell % 2 ^ cfg.wordBits),
      es2.events ++ [IREvent.castInst, IREvent.loadCell pcCell,
        IREvent.selectInst
          (if condb = 1 then jump
           else es2.mach.readCell pcCell % 2 ^ cfg.wordBits),
        IREvent.storeNextPc
          (if condb = 1 then jump
           else es2.mach.readCell pcCell % 2 ^ cfg.wordBits),
        IREvent.condBrSplit condb]) := by
  unfold liftCBranch
  rw [hcond]
  simp only [hjump, htr, hpc, if_neg hsp, liftAsInParam]
  simp [EmitS.emit, EmitS.setNextPc, MachineState.readCell]

/-- C5 witness: the amended theorem applied to the counterexample input;
the condition is 1, so the next-pc cell receives the resolved target. -/
theorem c5_cbranch_lowering_witness :
    (liftCBranch testCfg initES ⟨AddrSpace.ram, 0x1000, 8⟩
      ⟨AddrSpace.const, 1, 1⟩).map
      (fun r => (r.1, r.2.mach.next_pc, r.2.events)) =
    some (LiftStatus.kLiftedInstruction, 0x1000,
      initES.events ++ [IREvent.castInst,
        IREvent.loadCell (CellRef.namedReg "PC"),
        IREvent.selectInst 0x1000, IREvent.storeNextPc 0x1000,
        IREvent.condBrSplit 1]) := by
  have h := c5_cbranch_lowering testCfg initES ⟨AddrSpace.ram, 0x1000, 8⟩
    ⟨AddrSpace.const, 1, 1⟩ 1 initES 0x1000 initES 1
    (CellRef.namedReg "PC") rfl (by decide) rfl rfl rfl
  simpa using h

/-- C6 counterexample: a claim_eq CALLOTHER whose value varnode is a
first-seen unique-space varnode.  ApplyEqualityClaim resolves the value
varnode with LiftParamPtr, and UniqueRegSpace::GetUniquePtr inserts an
alloca through the builder for the fresh scratch cell
(SleighLifter.cpp:235-237), so the op returns kLiftedInstruction but DOES
emit IR, contradicting the claim that no IR is emitted. -/
theorem c6_counterexample_claim_eq_emits_alloca :
    ((handleCallOther testCfg initES
        [⟨AddrSpace.const, 0, 4⟩, ⟨AddrSpace.const, 0xDEAD, 4⟩,
         ⟨AddrSpace.unique, 0x10, 4⟩]).map (fun r => (r.1, r.2.events)) =
      some (LiftStatus.kLiftedInstruction,
        [IREvent.allocaCell (CellRef.uniqueCell 0x10)])) ∧
    decide ([IREvent.allocaCell (CellRef.uniqueCell 0x10)] =
      ([] : List IREvent)) = false := by
  refine ⟨by decide, by decide⟩

/-- C6 amended: CALLOTHER dispatch (SleighLifter.cpp:1066-1089).  An
out-of-range first input is kLiftedUnsupportedInstruction with the state
untouched; claim_eq with exactly 3 inputs records the substitution
inputs[1].offset to the location of inputs[2] and returns
kLiftedInstruction, the only IR being whatever LiftParamPtr emits to
materialise that location (an alloca for a first-seen scratch cell, or
the reads of a nested replacement); any other resolved name, and claim_eq
at any other arity, is kLiftedUnsupportedInstruction with the state
untouched. -/
theorem c6_callother_dispatch :
    (∀ (cfg : LifterConfig) (s : EmitS) (v0 : VarnodeData)
        (rest : List VarnodeData),
      cfg.userOpNames[v0.offset]? = none →
      handleCallOther cfg s (v0 :: rest) =
        some (LiftStatus.kLiftedUnsupportedInstruction, s)) ∧
    (∀ (cfg : LifterConfig) (s : EmitS) (v0 v1 v2 : VarnodeData)
        (p : Param) (s1 : EmitS),
      cfg.userOpNames[v0.offset]? = some kEqualityClaimName →
      liftParamPtr cfg s v2 = some (p, s1) →
      handleCallOther cfg s [v0, v1, v2] =
        some (LiftStatus.kLiftedInstruction, s1.addClaim v1.offset p)) ∧
    (∀ (cfg : LifterConfig) (s : EmitS) (v0 : VarnodeData)
        (rest : List VarnodeData) (nm : String),
      cfg.userOpNames[v0.offset]? = some nm → nm ≠ kEqualityClaimName →
      handleCallOther cfg s (v0 :: rest) =
        some (LiftStatus.kLiftedUnsupportedInstruction, s)) ∧
    (∀ (cfg : LifterConfig) (s : EmitS) (v0 : VarnodeData)
        (rest : List VarnodeData) (nm : String),
      cfg.userOpNames[v0.offset]? = some nm → rest.length ≠ 2 →
      handleCallOther cfg s (v0 :: rest) =
        some (LiftStatus.kLiftedUnsupportedInstruction, s)) := by
  refine ⟨?_, ?_, ?_, ?_⟩
  · intro cfg s v0 rest hno
    unfold handleCallOther getOtherFuncName
    dsimp only
    rw [hno]
  · intro cfg s v0 v1 v2 p s1 hnm hpp
    unfold handleCallOther getOtherFuncName
    dsimp only
    rw [hnm]
    simp only [if_pos rfl]
    rw [hpp]
    simp
  · intro cfg s v0 rest nm hnm hne
    unfold handleCallOther getOtherFuncName
    dsimp only
    rw [hnm]
    match rest with
    | [] => rfl
    | [u1] => rfl
    | [u1, u2] => simp [if_neg hne]
    | u1 :: u2 :: u3 :: urest => rfl
  · intro cfg s v0 rest nm hnm hlen
    unfold handleCallOther getOtherFuncName
    dsimp only
    rw [hnm]
    match rest with
    | [] => rfl
    | [u1] => rfl
    | [u1, u2] => exact absurd rfl hlen
    | u1 :: u2 :: u3 :: urest => rfl

/-- C6 witness: the dispatch theorem applied to the three concrete cases —
an out-of-range index, the recording claim_eq of the counterexample, and
an unknown user op name. -/
theorem c6_callother_dispatch_witness :
    (handleCallOther testCfg initES [⟨AddrSpace.const, 5, 4⟩] =
      some (LiftStatus.kLiftedUnsupportedInstruction, initES)) ∧
    (handleCallOther testCfg initES
        [⟨AddrSpace.const, 0, 4⟩, ⟨AddrSpace.const, 0xDEAD, 4⟩,
         ⟨AddrSpace.unique, 0x10, 4⟩] =
      some (LiftStatus.kLiftedInstruction,
        (((initES.addAllocU 0x10).emit
            (IREvent.allocaCell (CellRef.uniqueCell 0x10))).addClaim 0xDEAD
          (Param.registerValue (CellRef.uniqueCell 0x10))))) := by
  constructor
  · exact c6_callother_dispatch.1 testCfg initES ⟨AddrSpace.const, 5, 4⟩ []
      rfl
  · exact c6_callother_dispatch.2.1 testCfg initES ⟨AddrSpace.const, 0, 4⟩
      ⟨AddrSpace.const, 0xDEAD, 4⟩ ⟨AddrSpace.unique, 0x10, 4⟩
      (Param.registerValue (CellRef.uniqueCell 0x10))
      ((initES.addAllocU 0x10).emit
        (IREvent.allocaCell (CellRef.uniqueCell 0x10))) rfl rfl

/-- C7 witness: the block-structure theorem applied to a concrete action
sequence containing a conditional split (the shape of a CBRANCH lowering
followed by further ops). -/
theorem c7_all_blocks_terminated_witness :
    endsWithTerm ((runCFG [BAction.appendPlain, BAction.doTermBlockCond,
      BAction.appendPlain]).blk 0) = true ∧
    (runCFG [BAction.appendPlain, BAction.doTermBlockCond,
      BAction.appendPlain]).blk exitIdx = [BInst.retMem] ∧
    reachesExitFuel (runCFG [BAction.appendPlain, BAction.doTermBlockCond,
      BAction.appendPlain]).blk
      ((runCFG [BAction.appendPlain, BAction.doTermBlockCond,
        BAction.appendPlain]).nblocks + 1) 0 = true := by
  refine ⟨?_, ?_, ?_⟩
  · exact (c7_all_blocks_terminated [BAction.appendPlain,
      BAction.doTermBlockCond, BAction.appendPlain]).1 0 (by decide)
  · exact (c7_all_blocks_terminated [BAction.appendPlain,
      BAction.doTermBlockCond, BAction.appendPlain]).2.1
  · exact (c7_all_blocks_terminated [BAction.appendPlain,
      BAction.doTermBlockCond, BAction.appendPlain]).2.2 0 (by decide)

/-- C8 counterexample: an INT_LESS comparison between two register
varnodes with NO output varnode.  The lowering returns
kLiftedUnsupportedInstruction, yet it has already inserted four
instructions — the two operand loads, the compare and the zero
extension — so the IR module is NOT unchanged by the failed lowering. -/
theorem c8_counterexample_failed_comparison_emits_ir :
    ((liftPcodeOp testCfg initES
        ⟨OpCode.CPUI_INT_LESS, none,
         [⟨AddrSpace.register, 8, 8⟩, ⟨AddrSpace.register, 16, 8⟩]⟩).map
        (fun r => (r.1, r.2.events)) =
      some (LiftStatus.kLiftedUnsupportedInstruction,
        [IREvent.loadCell (CellRef.namedReg "R1"),
         IREvent.loadCell (CellRef.namedReg "R0"),
         IREvent.cmpInst, IREvent.castInst])) ∧
    decide ([IREvent.loadCell (CellRef.namedReg "R1"),
      IREvent.loadCell (CellRef.namedReg "R0"),
      IREvent.cmpInst, IREvent.castInst] = ([] : List IREvent)) = false := by
  refine ⟨by decide, by decide⟩

/-- C8 amended: an op whose opcode has no lowering at all (absent from
both binary tables and not one of the special binary cases) returns
kLiftedUnsupportedInstruction with the state — in particular the emitted
IR — completely unchanged, and so does a LOAD op with a missing output
varnode, whose guard (opc == CPUI_LOAD && outvar, SleighLifter.cpp:896)
fails before any operand is read; but a COMPARISON with a missing output
varnode fails only at the store precondition and leaves the already
emitted operand reads and the computed comparison in the module — only
the store is skipped (the instruction stream gains no store event). -/
theorem c8_unsupported_emission :
    (∀ (cfg : LifterConfig) (s : EmitS) (outvar : Option VarnodeData)
        (lhs rhs : VarnodeData) (opc : OpCode),
      INTEGER_BINARY_OPS opc = none → BOOL_BINARY_OPS opc = none →
      opc ≠ OpCode.CPUI_CBRANCH → opc ≠ OpCode.CPUI_LOAD →
      opc ≠ OpCode.CPUI_PIECE → opc ≠ OpCode.CPUI_SUBPIECE →
      liftBinOp cfg s opc outvar lhs rhs =
        some (LiftStatus.kLiftedUnsupportedInstruction, s)) ∧
    (∀ (cfg : LifterConfig) (s : EmitS) (lhs rhs : VarnodeData),
      liftBinOp cfg s OpCode.CPUI_LOAD none lhs rhs =
        some (LiftStatus.kLiftedUnsupportedInstruction, s)) ∧
    ((liftPcodeOp testCfg initES
        ⟨OpCode.CPUI_INT_EQUAL, none,
         [⟨AddrSpace.register, 8, 8⟩, ⟨AddrSpace.register, 16, 8⟩]⟩).map
        (fun r => (r.1, r.2.events,
          r.2.events.filter (fun e =>
            match e with
            | IREvent.storeCell _ _ => true
            | IREvent.memStoreCall _ _ _ => true
            | _ => false))) =
      some (LiftStatus.kLiftedUnsupportedInstruction,
        [IREvent.loadCell (CellRef.namedReg "R1"),
         IREvent.loadCell (CellRef.namedReg "R0"),
         IREvent.cmpInst, IREvent.castInst], ([] : List IREvent))) := by
  refine ⟨?_, ?_, ?_⟩
  · intro cfg s outvar lhs rhs opc h1 h2 h3 h4 h5 h6
    unfold liftBinOp liftIntegerBinOp liftBoolBinOp liftFloatBinOp
    rw [if_neg h3, h1, h2]
    dsimp only
    cases opc <;>
      first
        | exact absurd rfl h3
        | exact absurd rfl h4
        | exact absurd rfl h5
        | exact absurd rfl h6
        | rfl
  · intro cfg s lhs rhs
    rfl
  · decide

/-- C8 witness: the no-lowering clause applied to the INDIRECT opcode,
which has no binary lowering, and the LOAD clause applied to a LOAD with
no output varnode — both return Unsupported with the state untouched. -/
theorem c8_unsupported_emission_witness :
    (liftBinOp testCfg initES OpCode.CPUI_INDIRECT
      (some ⟨AddrSpace.unique, 0x30, 4⟩) ⟨AddrSpace.const, 1, 4⟩
      ⟨AddrSpace.const, 2, 4⟩ =
    some (LiftStatus.kLiftedUnsupportedInstruction, initES)) ∧
    (liftBinOp testCfg initES OpCode.CPUI_LOAD none
      ⟨AddrSpace.const, 0, 8⟩ ⟨AddrSpace.const, 0x100, 8⟩ =
    some (LiftStatus.kLiftedUnsupportedInstruction, initES)) :=
  ⟨c8_unsupported_emission.1 testCfg initES
    (some ⟨AddrSpace.unique, 0x30, 4⟩) ⟨AddrSpace.const, 1, 4⟩
    ⟨AddrSpace.const, 2, 4⟩ OpCode.CPUI_INDIRECT
    rfl rfl (by decide) (by decide) (by decide) (by decide),
   c8_unsupported_emission.2.1 testCfg initES ⟨AddrSpace.const, 0, 8⟩
    ⟨AddrSpace.const, 0x100, 8⟩⟩

/-- C9: when the branch-taken descriptor index is reached (dump,
SleighLifter.cpp:1163-1169), the branch-taken side effect runs BEFORE the
op at that index is lowered.  If lifting the branch-taken varnode fails,
the sticky status is merged with kLiftedLifterError and the op is still
lowered from the intermediate state, with the op index advancing so the
remaining ops keep lowering; on success, the lifted value is
CreateZExtOrTrunc-ed to one byte and stored into the branch-taken cell
(the storeBtaken event precedes any instruction of the op at that
index). -/
theorem c9_branch_taken_side_channel :
    (∀ (cfg : LifterConfig) (b : BranchTakenVar) (es es1 : EmitS)
        (st stOp : LiftStatus) (op : PcodeOp) (es2 : EmitS),
      liftIntegerInParam cfg es b.target_vnode = some (none, es1) →
      liftPcodeOp cfg es1 op = some (stOp, es2) →
      dump cfg (some b) ⟨es, st, b.index⟩ op =
        some ⟨es2,
          updateStatus (updateStatus st LiftStatus.kLiftedLifterError) stOp,
          b.index + 1⟩) ∧
    (∀ (cfg : LifterConfig) (b : BranchTakenVar) (es es1 : EmitS)
        (st stOp : LiftStatus) (op : PcodeOp) (es2 : EmitS),
      liftBranchTaken cfg es b = some (LiftStatus.kLiftedInstruction, es1) →
      liftPcodeOp cfg es1 op = some (stOp, es2) →
      dump cfg (some b) ⟨es, st, b.index⟩ op =
        some ⟨es2, updateStatus st stOp, b.index + 1⟩) ∧
    (∀ (cfg : LifterConfig) (b : BranchTakenVar) (es es1 : EmitS) (v : Nat),
      liftIntegerInParam cfg es b.target_vnode = some (some v, es1) →
      (liftBranchTaken cfg es b).map
        (fun r => (r.1, r.2.mach.btaken_flag, r.2.events)) =
      some (LiftStatus.kLiftedInstruction,
        createZExtOrTrunc (b.target_vnode.size * 8) 8 v,
        (if b.target_vnode.size * 8 = 8 then es1.events
         else es1.events ++ [IREvent.castInst]) ++
          [IREvent.storeBtaken
            (createZExtOrTrunc (b.target_vnode.size * 8) 8 v)])) := by
  refine ⟨?_, ?_, ?_⟩
  · intro cfg b es es1 st stOp op es2 h1 h2
    have hbt : liftBranchTaken cfg es b =
        some (LiftStatus.kLiftedLifterError, es1) := by
      unfold liftBranchTaken
      rw [h1]
    unfold dump
    dsimp only
    rw [if_pos rfl, hbt]
    dsimp only
    rw [h2]
  · intro cfg b es es1 st stOp op es2 hbt h2
    unfold dump
    dsimp only
    rw [if_pos rfl, hbt]
    dsimp only
    rw [h2]
    simp [updateStatus]
  · intro cfg b es es1 v h1
    unfold liftBranchTaken
    rw [h1]
    dsimp only
    split <;> simp [EmitS.emit, EmitS.setBtaken]

/-- C9 witness: a branch-taken descriptor at index 0 reading the one-byte
constant 1, followed by a COPY op at that index: the branch-taken cell
receives 1, the status stays lifted, and the op index advances. -/
theorem c9_branch_taken_side_channel_witness :
    ((liftBranchTaken testCfg initES ⟨⟨AddrSpace.const, 1, 1⟩, 0⟩).map
      (fun r => (r.1, r.2.mach.btaken_flag, r.2.events)) =
      some (LiftStatus.kLiftedInstruction, 1,
        [IREvent.storeBtaken 1])) ∧
    ((dump testCfg (some ⟨⟨AddrSpace.const, 1, 1⟩, 0⟩)
        ⟨initES, LiftStatus.kLiftedInstruction, 0⟩
        ⟨OpCode.CPUI_COPY, some ⟨AddrSpace.unique, 0x60, 1⟩,
         [⟨AddrSpace.const, 5, 1⟩]⟩).map
        (fun d => (d.status, d.curr_id, d.es.mach.btaken_flag)) =
      some (LiftStatus.kLiftedInstruction, 1, 1)) := by
  constructor
  · have h := c9_branch_taken_side_channel.2.2 testCfg
      ⟨⟨AddrSpace.const, 1, 1⟩, 0⟩ initES initES 1 rfl
    simpa using h
  · rw [c9_branch_taken_side_channel.2.1 testCfg
      ⟨⟨AddrSpace.const, 1, 1⟩, 0⟩ initES _ LiftStatus.kLiftedInstruction
      _ ⟨OpCode.CPUI_COPY, some ⟨AddrSpace.unique, 0x60, 1⟩,
         [⟨AddrSpace.const, 5, 1⟩]⟩ _ rfl rfl]
    rfl

/-- C10: a CALLOTHER op with an empty input list is
kLiftedUnsupportedInstruction, and the lifter state is returned untouched:
no claim is recorded and no IR is emitted (GetOtherFuncName returns no
name for isize < 1, SleighLifter.cpp:1066-1072). -/
theorem c10_callother_empty_inputs_unsupported (cfg : LifterConfig)
    (s : EmitS) (outvar : Option VarnodeData) :
    liftPcodeOp cfg s ⟨OpCode.CPUI_CALLOTHER, outvar, []⟩ =
      some (LiftStatus.kLiftedUnsupportedInstruction, s) := rfl
